import Mathlib

/-!
# FishFight editor — shallow embedding and verification

A shallow embedding of the FishFight map-editor core: the map data model,
the undoable-action command pattern, the editor history (undo/redo), the
editor controller's action dispatch and selection-repair pass
(`src/editor/mod.rs`), and the editor camera (`src/editor/camera.rs`).

GUI windows, textures, the scene graph and the windowing backend are
external collaborators and are left out of the model (their effects on the
editor state are nil; their queries appear as explicit oracle parameters).
`f32` scalars are embedded as exact rationals (`ℚ`); `u32`/`usize` as `ℕ`.

The `actions`, `history`, `tools` modules of the editor and the `Map` type
of `ff_core` are declared but their sources are not part of this tree;
those definitions are modelled from the specification and carry a
`Modelled from the spec:` doc comment.
-/

namespace FishFight

/-- 2D vector over exact rationals (embeds the engine's `Vec2` of `f32`). -/
structure Vec2 where
  x : ℚ
  y : ℚ
deriving DecidableEq, Repr

namespace Vec2

def zero : Vec2 := ⟨0, 0⟩

def add (a b : Vec2) : Vec2 := ⟨a.x + b.x, a.y + b.y⟩

def sub (a b : Vec2) : Vec2 := ⟨a.x - b.x, a.y - b.y⟩

def divScalar (a : Vec2) (s : ℚ) : Vec2 := ⟨a.x / s, a.y / s⟩

def mulScalar (a : Vec2) (s : ℚ) : Vec2 := ⟨a.x * s, a.y * s⟩

/-- Componentwise clamp, as `Vec2.clamp(min, max)` in glam. -/
def clampV (a lo hi : Vec2) : Vec2 :=
  ⟨min (max a.x lo.x) hi.x, min (max a.y lo.y) hi.y⟩

end Vec2

/-- `Size<T>` from `core/src/math/size.rs`: a width/height pair. -/
structure Size (α : Type) where
  width : α
  height : α
deriving DecidableEq, Repr

/-- Axis-aligned rectangle (external math library collaborator). -/
structure Rect where
  x : ℚ
  y : ℚ
  w : ℚ
  h : ℚ
deriving DecidableEq, Repr

namespace Rect

/-- The rectangle's top-left corner (`Rect::point`). -/
def point (r : Rect) : Vec2 := ⟨r.x, r.y⟩

/-- Membership test of the external `Rect::contains(point)`
(inclusive bounds, as in the macroquad math library). -/
def containsPt (r : Rect) (p : Vec2) : Bool :=
  decide (r.x ≤ p.x) && decide (p.x ≤ r.x + r.w) &&
  decide (r.y ≤ p.y) && decide (p.y ≤ r.y + r.h)

end Rect

/-- RGBA color (embeds the engine's `Color` of four `f32` channels). -/
structure Color where
  red : ℚ
  green : ℚ
  blue : ℚ
  alpha : ℚ
deriving DecidableEq, Repr

/-! ## Map data model

Modelled from the spec: the `Map` type lives in `ff_core::map`, whose
source is not part of this tree.  Fields and operations follow spec §3
("Map: root document ...") and the accesses made by `src/editor/mod.rs`. -/

/-- Modelled from the spec: layer kind — `TileLayer | ObjectLayer`,
mutually exclusive. -/
inductive MapLayerKind where
  | tileLayer
  | objectLayer
deriving DecidableEq, Repr

/-- Modelled from the spec: map object kind `Item | Decoration | Environment`. -/
inductive MapObjectKind where
  | item
  | decoration
  | environment
deriving DecidableEq, Repr

/-- Modelled from the spec: a map object — id, kind, position; owned by its
layer's ordered object sequence. -/
structure MapObject where
  id : String
  kind : MapObjectKind
  position : Vec2
deriving DecidableEq, Repr

/-- Modelled from the spec: a tile reference — tileset id plus tile id
within the tileset's id range, plus attributes. -/
structure MapTile where
  tile_id : Nat
  tileset_id : String
  attributes : List String
deriving DecidableEq, Repr

/-- Modelled from the spec: a map layer — id, kind, visibility and
collision flags, a sparse tile grid (one optional tile per grid cell, in
row-major order) and an ordered object sequence. -/
structure MapLayer where
  id : String
  kind : MapLayerKind
  has_collision : Bool
  is_visible : Bool
  tiles : List (Option MapTile)
  objects : List MapObject
deriving DecidableEq, Repr

/-- Modelled from the spec: a tileset — texture, global first tile id,
tile count, autotile mask. -/
structure MapTileset where
  id : String
  texture_id : String
  first_tile_id : Nat
  tile_cnt : Nat
  autotile_mask : List Bool
deriving DecidableEq, Repr

/-- Modelled from the spec: a background layer (texture id, depth, offset). -/
structure MapBackgroundLayer where
  texture_id : String
  depth : ℚ
  offset : Vec2
deriving DecidableEq, Repr

/-- Association-list lookup by string key, embedding the id → value
mappings of the map document. -/
def alistGet {α : Type} (key : String) : List (String × α) → Option α
  | [] => none
  | (k, v) :: rest => if k = key then some v else alistGet key rest

/-- Remove the entry with the given key (first occurrence), embedding map
removal. -/
def alistRemove {α : Type} (key : String) : List (String × α) → List (String × α)
  | [] => []
  | (k, v) :: rest => if k = key then rest else (k, v) :: alistRemove key rest

/-- Modelled from the spec: the root map document (spec §3). -/
structure Map where
  background_color : Color
  background_layers : List MapBackgroundLayer
  layers : List (String × MapLayer)
  draw_order : List String
  tilesets : List (String × MapTileset)
  spawn_points : List Vec2
  grid_size : Size Nat
  tile_size : Size ℚ
  world_offset : Vec2
deriving DecidableEq, Repr

namespace Map

/-- `map.layers.get(id)`. -/
def getLayer (m : Map) (id : String) : Option MapLayer := alistGet id m.layers

/-- `map.tilesets.get(id)`. -/
def getTileset (m : Map) (id : String) : Option MapTileset := alistGet id m.tilesets

/-- Modelled from the spec: `Map::to_index(coords)` — row-major linear
index of a grid coordinate. -/
def to_index (m : Map) (coords : Nat × Nat) : Nat :=
  coords.2 * m.grid_size.width + coords.1

/-- Modelled from the spec: `Map::to_coords(position)` — grid cell of a
world position. -/
def to_coords (m : Map) (position : Vec2) : Nat × Nat :=
  (((position.x - m.world_offset.x) / m.tile_size.width).floor.toNat,
   ((position.y - m.world_offset.y) / m.tile_size.height).floor.toNat)

/-- Modelled from the spec: `Map::to_position(coords)` — world position of
a grid cell's top-left corner. -/
def to_position (m : Map) (coords : Nat × Nat) : Vec2 :=
  ⟨m.world_offset.x + coords.1 * m.tile_size.width,
   m.world_offset.y + coords.2 * m.tile_size.height⟩

/-- Modelled from the spec: pixel size of the map (grid size times tile
size), as used for the camera clamp. -/
def get_size (m : Map) : Vec2 :=
  ⟨m.grid_size.width * m.tile_size.width, m.grid_size.height * m.tile_size.height⟩

end Map

/-- Replace the value stored under the given key (first occurrence),
embedding in-place update of a map entry. -/
def alistSet {α : Type} (key : String) (v : α) : List (String × α) → List (String × α)
  | [] => []
  | (k, w) :: rest => if k = key then (k, v) :: rest else (k, w) :: alistSet key v rest

/-- Index of the entry with the given key, embedding the position of an id
inside the layer mapping. -/
def alistIdx {α : Type} (key : String) (l : List (String × α)) : Nat :=
  l.findIdx (fun p => p.1 = key)

/-! ## Undoable actions

Modelled from the spec: the `actions` module of the editor is declared in
`src/editor/mod.rs` but its source is not part of this tree.  Each variant
captures, at construction or at first application, all data needed to both
apply and reverse itself (spec §4.1); `apply`/`undo` fail with a
map-consistency error when a referenced entity no longer exists. -/

/-- Modelled from the spec: the undoable map-mutation commands the claims
exercise (`CreateLayerAction`, `DeleteLayerAction`,
`SetLayerDrawOrderIndexAction`, `UpdateObjectAction`,
`MoveSpawnPointAction`), with their captured undo data. -/
inductive MapAction where
  | createLayer (id : String) (kind : MapLayerKind) (has_collision : Bool) (index : Nat)
  | deleteLayer (id : String) (captured : Option (MapLayer × Nat × Nat))
  | setLayerDrawOrderIndex (id : String) (index : Nat) (old_index : Option Nat)
  | updateObject (layer_id : String) (index : Nat) (id : String)
      (kind : MapObjectKind) (position : Vec2) (old : Option MapObject)
  | moveSpawnPoint (index : Nat) (position : Vec2) (old : Option Vec2)
  | deleteObject (index : Nat) (layer_id : String) (old : Option MapObject)
  | removeTile (layer_id : String) (coords : Nat × Nat) (old : Option (Option MapTile))
  | deleteSpawnPoint (index : Nat) (old : Option Vec2)
deriving DecidableEq, Repr

namespace MapAction

/-- Modelled from the spec: `UndoableAction::apply(&mut Map)`.  Returns the
action with its captured undo data together with the mutated map. -/
def applyTo : MapAction → Map → Except String (MapAction × Map)
  | a@(createLayer id kind has_collision index), m =>
    if (m.getLayer id).isSome then
      .error "layer id already in use"
    else
      let layer : MapLayer :=
        { id := id, kind := kind, has_collision := has_collision, is_visible := true
          tiles := List.replicate (m.grid_size.width * m.grid_size.height) none
          objects := [] }
      .ok (a, { m with
        layers := m.layers ++ [(id, layer)]
        draw_order := m.draw_order.insertIdx (min index m.draw_order.length) id })
  | deleteLayer id _, m =>
    match m.getLayer id with
    | none => .error "no layer with id"
    | some layer =>
      .ok (deleteLayer id (some (layer, alistIdx id m.layers, m.draw_order.indexOf id)),
        { m with
          layers := alistRemove id m.layers
          draw_order := m.draw_order.erase id })
  | setLayerDrawOrderIndex id index _, m =>
    if m.draw_order.contains id then
      let d := m.draw_order.erase id
      .ok (setLayerDrawOrderIndex id index (some (m.draw_order.indexOf id)),
        { m with draw_order := d.insertIdx (min index d.length) id })
    else
      .error "layer id not in draw order"
  | updateObject layer_id index id kind position _, m =>
    match m.getLayer layer_id with
    | none => .error "no layer with id"
    | some layer =>
      match layer.objects.get? index with
      | none => .error "no object at index"
      | some old =>
        let layer' := { layer with
          objects := layer.objects.set index { id := id, kind := kind, position := position } }
        .ok (updateObject layer_id index id kind position (some old),
          { m with layers := alistSet layer_id layer' m.layers })
  | moveSpawnPoint index position _, m =>
    match m.spawn_points.get? index with
    | none => .error "no spawn point at index"
    | some old =>
      .ok (moveSpawnPoint index position (some old),
        { m with spawn_points := m.spawn_points.set index position })
  | deleteObject index layer_id _, m =>
    match m.getLayer layer_id with
    | none => .error "no layer with id"
    | some layer =>
      match layer.objects.get? index with
      | none => .error "no object at index"
      | some old =>
        let layer' := { layer with objects := layer.objects.eraseIdx index }
        .ok (deleteObject index layer_id (some old),
          { m with layers := alistSet layer_id layer' m.layers })
  | removeTile layer_id coords _, m =>
    match m.getLayer layer_id with
    | none => .error "no layer with id"
    | some layer =>
      match layer.tiles.get? (m.to_index coords) with
      | none => .error "tile coordinates out of bounds"
      | some old =>
        let layer' := { layer with tiles := layer.tiles.set (m.to_index coords) none }
        .ok (removeTile layer_id coords (some old),
          { m with layers := alistSet layer_id layer' m.layers })
  | deleteSpawnPoint index _, m =>
    match m.spawn_points.get? index with
    | none => .error "no spawn point at index"
    | some old =>
      .ok (deleteSpawnPoint index (some old),
        { m with spawn_points := m.spawn_points.eraseIdx index })

/-- Modelled from the spec: `UndoableAction::undo(&mut Map)` — exactly
restores the map subregion touched by `applyTo`. -/
def undoOn : MapAction → Map → Except String Map
  | createLayer id _ _ _, m =>
    if (m.getLayer id).isSome then
      .ok { m with
        layers := alistRemove id m.layers
        draw_order := m.draw_order.erase id }
    else
      .error "no layer with id"
  | deleteLayer id captured, m =>
    match captured with
    | none => .error "nothing to undo"
    | some (layer, layers_index, draw_order_index) =>
      -- an out-of-range captured index is a map-consistency failure
      -- (the Rust vector insert would abort there)
      if layers_index ≤ m.layers.length ∧ draw_order_index ≤ m.draw_order.length then
        .ok { m with
          layers := m.layers.insertIdx layers_index (id, layer)
          draw_order := m.draw_order.insertIdx draw_order_index id }
      else
        .error "captured index out of bounds"
  | setLayerDrawOrderIndex id _ old_index, m =>
    match old_index with
    | none => .error "nothing to undo"
    | some oi =>
      if m.draw_order.contains id then
        let d := m.draw_order.erase id
        .ok { m with draw_order := d.insertIdx (min oi d.length) id }
      else
        .error "layer id not in draw order"
  | updateObject layer_id index _ _ _ old, m =>
    match old with
    | none => .error "nothing to undo"
    | some old_object =>
      match m.getLayer layer_id with
      | none => .error "no layer with id"
      | some layer =>
        let layer' := { layer with objects := layer.objects.set index old_object }
        .ok { m with layers := alistSet layer_id layer' m.layers }
  | moveSpawnPoint index _ old, m =>
    match old with
    | none => .error "nothing to undo"
    | some old_position =>
      if index < m.spawn_points.length then
        .ok { m with spawn_points := m.spawn_points.set index old_position }
      else
        .error "no spawn point at index"
  | deleteObject index layer_id old, m =>
    match old with
    | none => .error "nothing to undo"
    | some old_object =>
      match m.getLayer layer_id with
      | none => .error "no layer with id"
      | some layer =>
        let layer' := { layer with objects := layer.objects.insertIdx index old_object }
        .ok { m with layers := alistSet layer_id layer' m.layers }
  | removeTile layer_id coords old, m =>
    match old with
    | none => .error "nothing to undo"
    | some old_tile =>
      match m.getLayer layer_id with
      | none => .error "no layer with id"
      | some layer =>
        let layer' := { layer with tiles := layer.tiles.set (m.to_index coords) old_tile }
        .ok { m with layers := alistSet layer_id layer' m.layers }
  | deleteSpawnPoint index old, m =>
    match old with
    | none => .error "nothing to undo"
    | some old_position =>
      .ok { m with spawn_points := m.spawn_points.insertIdx index old_position }

end MapAction

/-! ## Editor history

Modelled from the spec (§4.2): the `history` module is declared in
`src/editor/mod.rs` but its source is not part of this tree.  An undo
stack of actions plus a cursor; entries past the cursor form the redo
tail, discarded when a fresh action is applied. -/

/-- The polymorphic action interface the history works against
(`Box<dyn UndoableAction>`): `applyTo` may update the action's captured
undo data. -/
structure ActionOps (A : Type) where
  applyTo : A → Map → Except String (A × Map)
  undoOn : A → Map → Except String Map

/-- The `ActionOps` instance of the concrete `MapAction` commands. -/
def mapActionOps : ActionOps MapAction :=
  { applyTo := MapAction.applyTo, undoOn := MapAction.undoOn }

/-- Modelled from the spec: `EditorHistory` — an undo stack plus a cursor
separating applied entries from the redo tail. -/
structure EditorHistory (A : Type) where
  stack : List A
  cursor : Nat
deriving DecidableEq, Repr

namespace EditorHistory

/-- A fresh, empty history (`EditorHistory::new`). -/
def new {A : Type} : EditorHistory A := ⟨[], 0⟩

/-- Modelled from the spec: `EditorHistory::apply` — discard the redo tail
past the cursor, apply the action to the map; on success push it and
advance the cursor, on failure propagate the error without mutating
anything. -/
def applyAct {A : Type} (ops : ActionOps A) (a : A) (h : EditorHistory A) (m : Map) :
    Except String (EditorHistory A × Map) :=
  match ops.applyTo a m with
  | .error e => .error e
  | .ok (a', m') => .ok (⟨h.stack.take h.cursor ++ [a'], h.cursor + 1⟩, m')

/-- Modelled from the spec: `EditorHistory::undo` — no-op `Ok` at cursor 0,
otherwise undo the entry below the cursor and decrement it on success. -/
def undoAct {A : Type} (ops : ActionOps A) (h : EditorHistory A) (m : Map) :
    Except String (EditorHistory A × Map) :=
  if h.cursor = 0 then .ok (h, m)
  else
    match h.stack.get? (h.cursor - 1) with
    | none => .error "history cursor out of bounds"
    | some a =>
      match ops.undoOn a m with
      | .error e => .error e
      | .ok m' => .ok (⟨h.stack, h.cursor - 1⟩, m')

/-- Modelled from the spec: `EditorHistory::redo` — no-op `Ok` at the top
of the stack, otherwise re-apply the entry at the cursor and increment it
on success. -/
def redoAct {A : Type} (ops : ActionOps A) (h : EditorHistory A) (m : Map) :
    Except String (EditorHistory A × Map) :=
  if h.cursor = h.stack.length then .ok (h, m)
  else
    match h.stack.get? h.cursor with
    | none => .error "history cursor out of bounds"
    | some a =>
      match ops.applyTo a m with
      | .error e => .error e
      | .ok (a', m') => .ok (⟨h.stack.set h.cursor a', h.cursor + 1⟩, m')

/-- Modelled from the spec: `EditorHistory::clear` — empty the stack,
reset the cursor. -/
def clear {A : Type} (_h : EditorHistory A) : EditorHistory A := ⟨[], 0⟩

end EditorHistory

/-! ## Editor camera (`src/editor/camera.rs`) -/

/-- The editor camera: a world position and a zoom scale
(`src/editor/camera.rs`). -/
structure EditorCamera where
  position : Vec2
  scale : ℚ
deriving DecidableEq, Repr

namespace EditorCamera

/-- `EditorCamera::get_view_rect`: the visible world rectangle, given the
externally queried window size. -/
def get_view_rect (window_size : Size ℚ) (c : EditorCamera) : Rect :=
  let size : Vec2 := ⟨window_size.width / c.scale, window_size.height / c.scale⟩
  let position := c.position.sub (size.divScalar 2)
  ⟨position.x, position.y, size.x, size.y⟩

/-- `EditorCamera::to_world_space`: `position / scale + view_rect.point()`. -/
def to_world_space (window_size : Size ℚ) (c : EditorCamera) (position : Vec2) : Vec2 :=
  let rect := c.get_view_rect window_size
  (position.divScalar c.scale).add rect.point

/-- `EditorCamera::to_screen_space`: `(position - view_rect.point()) * scale`. -/
def to_screen_space (window_size : Size ℚ) (c : EditorCamera) (position : Vec2) : Vec2 :=
  let rect := c.get_view_rect window_size
  (position.sub rect.point).mulScalar c.scale

end EditorCamera

/-! ## Editor controller state (`src/editor/mod.rs`) -/

/-- Per-frame editor input snapshot (`src/editor/input.rs`). -/
structure EditorInput where
  action : Bool
  back : Bool
  context_menu : Bool
  camera_move_direction : Vec2
  camera_mouse_move : Bool
  camera_zoom : ℚ
  cursor_move_direction : Vec2
  undo : Bool
  redo : Bool
  toggle_menu : Bool
  toggle_draw_grid : Bool
  toggle_snap_to_grid : Bool
  toggle_disable_parallax : Bool
  save : Bool
  save_as : Bool
  load : Bool
  delete : Bool
deriving DecidableEq, Repr

/-- The all-false default input (`EditorInput::default`). -/
def EditorInput.default : EditorInput :=
  ⟨false, false, false, Vec2.zero, false, 0, Vec2.zero, false, false, false,
   false, false, false, false, false, false, false⟩

/-- The in-progress drag micro-state (`DraggedObject` in
`src/editor/mod.rs`). -/
inductive DraggedObject where
  | mapObject (id : String) (kind : MapObjectKind) (index : Nat)
      (layer_id : String) (click_offset : Vec2)
  | spawnPoint (index : Nat) (click_offset : Vec2)
deriving DecidableEq, Repr

/-- Modelled from the spec: `MapResource` metadata of `ff_core::map` — the
fields `src/editor/mod.rs` reads and writes. -/
structure MapResourceMeta where
  name : String
  path : String
  is_user_map : Bool
  is_tiled_map : Bool
deriving DecidableEq, Repr

/-- Modelled from the spec: `MapResource` of `ff_core::map` — metadata
plus the map document. -/
structure MapResource where
  meta : MapResourceMeta
  map : Map
deriving DecidableEq, Repr

/-- Tools are dispatched by `TypeId` through an external registry; the
embedding identifies a tool by an opaque string id. -/
abbrev ToolId := String

/-- The `EditorContext` snapshot handed to tools and GUI
(`src/editor/mod.rs` lines 71-98). -/
structure EditorContext where
  selected_tool : Option ToolId
  selected_layer : Option String
  selected_tileset : Option String
  selected_tile : Option Nat
  selected_object : Option Nat
  cursor_position : Vec2
  is_user_map : Bool
  is_tiled_map : Bool
  should_snap_to_grid : Bool
deriving DecidableEq, Repr

/-- The `Editor` controller's own state (the `Editor` struct,
`src/editor/mod.rs` lines 118-150).  The GUI handle stored in external
storage is out of the model. -/
structure EditorState where
  map_resource : MapResource
  selected_tool : Option ToolId
  selected_layer : Option String
  selected_tileset : Option String
  selected_tile : Option Nat
  selected_object : Option Nat
  selected_spawn_point : Option Nat
  selected_map_tile_index : Option Nat
  previous_cursor_position : Vec2
  cursor_position : Vec2
  history : EditorHistory MapAction
  previous_input : EditorInput
  input : EditorInput
  mouse_movement : Vec2
  info_message : Option String
  dragged_object : Option DraggedObject
  info_message_timer : ℚ
  double_click_timer : ℚ
  should_draw_grid : Bool
  should_snap_to_grid : Bool
  is_parallax_disabled : Bool
deriving DecidableEq, Repr

namespace EditorState

/-- `Editor::get_map`. -/
def map (s : EditorState) : Map := s.map_resource.map

/-- `Editor::get_context` (lines 277-289). -/
def get_context (s : EditorState) : EditorContext :=
  { selected_tool := s.selected_tool
    selected_layer := s.selected_layer
    selected_tileset := s.selected_tileset
    selected_tile := s.selected_tile
    selected_object := s.selected_object
    cursor_position := s.cursor_position
    is_user_map := s.map_resource.meta.is_user_map
    is_tiled_map := s.map_resource.meta.is_tiled_map
    should_snap_to_grid := s.should_snap_to_grid }

/-- `Editor::clear_context` (lines 336-342). -/
def clear_context (s : EditorState) : EditorState :=
  { s with
    selected_tool := none
    selected_layer := none
    selected_tileset := none
    selected_tile := none
    selected_object := none }

end EditorState

/-- External collaborators of `Editor::apply_action`: the tool registry's
availability predicate, the `save_map` persistence call's outcome, and the
`map_name_to_filename`-based export path helper. -/
structure EditorEnv where
  is_available : ToolId → Map → EditorContext → Bool
  save_ok : MapResource → Bool
  map_path : String → String

/-! ### `Editor::update_context` (lines 291-334), split into its four
sequential passes. -/

/-- `update_context`, pass 1: clear a selected layer that is no longer in
`draw_order`; otherwise, when nothing is selected, default to the first
layer in draw order. -/
def updateContextLayer (s : EditorState) : EditorState :=
  match s.selected_layer with
  | some layer_id =>
    if s.map.draw_order.contains layer_id then s
    else { s with selected_layer := none }
  | none =>
    match s.map.draw_order.head? with
    | some layer_id => { s with selected_layer := some layer_id }
    | none => s

/-- `update_context`, pass 2: clear the object selection on a tile layer
and the tileset/tile selection on an object layer.  The source unwraps the
layer lookup; a missing layer is the panic case, embedded as `none`. -/
def updateContextKind (s : EditorState) : Option EditorState :=
  match s.selected_layer with
  | none => some s
  | some layer_id =>
    match s.map.getLayer layer_id with
    | none => none
    | some layer =>
      match layer.kind with
      | .tileLayer => some { s with selected_object := none }
      | .objectLayer => some { s with selected_tileset := none, selected_tile := none }

/-- `update_context`, pass 3: clear a dangling tileset selection (with its
tile), or just the tile when its id is not below the tileset's tile
count. -/
def updateContextTileset (s : EditorState) : EditorState :=
  match s.selected_tileset with
  | none => s
  | some tileset_id =>
    match s.map.getTileset tileset_id with
    | some tileset =>
      match s.selected_tile with
      | some tile_id =>
        if tileset.tile_cnt ≤ tile_id then { s with selected_tile := none } else s
      | none => s
    | none => { s with selected_tileset := none, selected_tile := none }

/-- `update_context`, pass 4: clear the selected tool when it reports
itself unavailable for the current map and context. -/
def updateContextTool (env : EditorEnv) (s : EditorState) : EditorState :=
  match s.selected_tool with
  | none => s
  | some tool_id =>
    if env.is_available tool_id s.map s.get_context then s
    else { s with selected_tool := none }

/-- `Editor::update_context`: the four passes in order; `none` embeds the
panic on a broken draw-order/layers invariant. -/
def updateContext (env : EditorEnv) (s : EditorState) : Option EditorState :=
  match updateContextKind (updateContextLayer s) with
  | none => none
  | some s' => some (updateContextTool env (updateContextTileset s'))

/-- `Editor::select_tileset` (lines 344-357). -/
def selectTileset (s : EditorState) (tileset_id : String) (tile_id : Option Nat) :
    EditorState :=
  match s.map.getTileset tileset_id with
  | none => s
  | some tileset =>
    let s := { s with selected_tileset := some tileset_id }
    match tile_id with
    | some tid =>
      if tid < tileset.first_tile_id + tileset.tile_cnt then
        { s with selected_tile := some tid }
      else
        { s with selected_tile := some tileset.first_tile_id }
    | none => { s with selected_tile := some tileset.first_tile_id }

/-! ### `EditorAction` and `Editor::apply_action` (lines 361-647)

The embedded `EditorAction` vocabulary covers the variants the per-frame
update and the claims exercise; window-lifecycle variants only register a
window with the external GUI and so leave the editor state unchanged.
`Batch`, the map/tileset variants not reachable from `Editor::update`, and
the map-lifecycle variants (`CreateMap`/`OpenMap`/`DeleteMap`/menu
navigation) are outside the embedded vocabulary. -/

inductive EditorAction where
  | undo
  | redo
  | selectTool (id : Option ToolId)
  | selectTile (id : Nat) (tileset_id : String)
  | selectLayer (id : String)
  | setLayerDrawOrderIndex (id : String) (index : Nat)
  | createLayer (id : String) (kind : MapLayerKind) (has_collision : Bool) (index : Nat)
  | deleteLayer (id : String)
  | selectTileset (id : String)
  | selectObject (index : Nat) (layer_id : String)
  | updateObject (layer_id : String) (index : Nat) (id : String)
      (kind : MapObjectKind) (position : Vec2)
  | moveSpawnPoint (index : Nat) (position : Vec2)
  | deleteObject (index : Nat) (layer_id : String)
  | removeTile (layer_id : String) (coords : Nat × Nat)
  | deleteSpawnPoint (index : Nat)
  | saveMap (name : Option String)
  | openSaveMapWindow
  | openLoadMapWindow
  | openObjectPropertiesWindow (layer_id : String) (index : Nat)
  | openTilePropertiesWindow (layer_id : String) (index : Nat)
deriving DecidableEq, Repr

/-- Route an undoable action through the history
(`self.history.apply(Box::new(action), &mut self.map_resource.map)`),
threading the updated history and map back into the editor state. -/
def routeHistory (a : MapAction) (s : EditorState) : EditorState × Except String Unit :=
  match EditorHistory.applyAct mapActionOps a s.history s.map with
  | .error e => (s, .error e)
  | .ok (h, m) =>
    ({ s with history := h, map_resource := { s.map_resource with map := m } }, .ok ())

/-- The body of `Editor::apply_action` before the final error check and
context repair: the per-variant state change paired with the `res` value
the source accumulates. -/
def dispatch (env : EditorEnv) : EditorAction → EditorState → EditorState × Except String Unit
  | .undo, s =>
    match EditorHistory.undoAct mapActionOps s.history s.map with
    | .error e => (s, .error e)
    | .ok (h, m) =>
      ({ s with history := h, map_resource := { s.map_resource with map := m } }, .ok ())
  | .redo, s =>
    match EditorHistory.redoAct mapActionOps s.history s.map with
    | .error e => (s, .error e)
    | .ok (h, m) =>
      ({ s with history := h, map_resource := { s.map_resource with map := m } }, .ok ())
  | .selectTool id, s => ({ s with selected_tool := id }, .ok ())
  | .selectTile id tileset_id, s => (selectTileset s tileset_id (some id), .ok ())
  | .selectLayer id, s =>
    if (s.map.getLayer id).isSome then ({ s with selected_layer := some id }, .ok ())
    else (s, .ok ())
  | .setLayerDrawOrderIndex id index, s =>
    routeHistory (.setLayerDrawOrderIndex id index none) s
  | .createLayer id kind has_collision index, s =>
    routeHistory (.createLayer id kind has_collision index) s
  | .deleteLayer id, s => routeHistory (.deleteLayer id none) s
  | .selectTileset id, s => (selectTileset s id none, .ok ())
  | .selectObject index layer_id, s =>
    ({ s with selected_layer := some layer_id, selected_object := some index }, .ok ())
  | .updateObject layer_id index id kind position, s =>
    routeHistory (.updateObject layer_id index id kind position none) s
  | .moveSpawnPoint index position, s => routeHistory (.moveSpawnPoint index position none) s
  | .deleteObject index layer_id, s => routeHistory (.deleteObject index layer_id none) s
  | .removeTile layer_id coords, s => routeHistory (.removeTile layer_id coords none) s
  | .deleteSpawnPoint index, s => routeHistory (.deleteSpawnPoint index none) s
  | .saveMap name, s =>
    let mr := s.map_resource
    let mr := match name with
      | some n =>
        { mr with meta := { mr.meta with name := n, path := env.map_path n } }
      | none => mr
    let mr := { mr with meta := { mr.meta with is_user_map := true, is_tiled_map := false } }
    if env.save_ok mr then ({ s with map_resource := mr }, .ok ())
    else (s, .ok ())
  | .openSaveMapWindow, s => (s, .ok ())
  | .openLoadMapWindow, s => (s, .ok ())
  | .openObjectPropertiesWindow _ _, s => (s, .ok ())
  | .openTilePropertiesWindow _ _, s => (s, .ok ())

/-- `Editor::apply_action`: run the dispatch, panic (`none`) when `res` is
an error, then run the `update_context` repair pass. -/
def applyAction (env : EditorEnv) (a : EditorAction) (s : EditorState) :
    Option EditorState :=
  match dispatch env a s with
  | (_, .error _) => none
  | (s', .ok ()) => updateContext env s'

/-! ## Concrete fixtures for witnesses and counterexamples -/

/-- A benign external environment: every tool available, saving succeeds,
export path is the name itself. -/
def env0 : EditorEnv :=
  { is_available := fun _ _ _ => true, save_ok := fun _ => true, map_path := fun n => n }

/-- A fresh 2×2 tile layer fixture. -/
def tileLayer0 (id : String) : MapLayer :=
  { id := id, kind := .tileLayer, has_collision := false, is_visible := true
    tiles := List.replicate 4 none, objects := [] }

/-- A fresh object layer fixture. -/
def objectLayer0 (id : String) (objects : List MapObject) : MapLayer :=
  { id := id, kind := .objectLayer, has_collision := false, is_visible := true
    tiles := [], objects := objects }

/-- A small map fixture over a 2×2 grid of 8×8 tiles. -/
def mapWith (layers : List (String × MapLayer)) (draw : List String) : Map :=
  { background_color := ⟨0, 0, 0, 1⟩, background_layers := []
    layers := layers, draw_order := draw, tilesets := [], spawn_points := []
    grid_size := ⟨2, 2⟩, tile_size := ⟨8, 8⟩, world_offset := Vec2.zero }

/-- A fresh editor over the given map (selected layer defaulted to the
first in draw order, as `Editor::new` does; the timers start at zero —
their concrete values are immaterial to the properties below). -/
def baseState (m : Map) : EditorState :=
  { map_resource := ⟨⟨"m", "m", false, false⟩, m⟩
    selected_tool := none
    selected_layer := m.draw_order.head?
    selected_tileset := none
    selected_tile := none
    selected_object := none
    selected_spawn_point := none
    selected_map_tile_index := none
    previous_cursor_position := Vec2.zero
    cursor_position := Vec2.zero
    history := EditorHistory.new
    previous_input := EditorInput.default
    input := EditorInput.default
    mouse_movement := Vec2.zero
    info_message := none
    dragged_object := none
    info_message_timer := 0
    double_click_timer := 0
    should_draw_grid := true
    should_snap_to_grid := false
    is_parallax_disabled := false }

/-! ## Theorems -/

/-- C10: for every camera with nonzero scale and a fixed view rect, the
two coordinate conversions of `EditorCamera` are mutually inverse:
`to_screen_space (to_world_space p) = p` and
`to_world_space (to_screen_space q) = q`, over exact arithmetic. -/
theorem camera_conversions_inverse (window_size : Size ℚ) (c : EditorCamera)
    (p q : Vec2) (hs : c.scale ≠ 0) :
    c.to_screen_space window_size (c.to_world_space window_size p) = p ∧
    c.to_world_space window_size (c.to_screen_space window_size q) = q := by
  unfold EditorCamera.to_screen_space EditorCamera.to_world_space
    EditorCamera.get_view_rect
  simp only [Rect.point, Vec2.add, Vec2.sub, Vec2.divScalar, Vec2.mulScalar]
  constructor
  · cases p with
    | mk px py => simp only [Vec2.mk.injEq]; constructor <;> field_simp <;> ring
  · cases q with
    | mk qx qy => simp only [Vec2.mk.injEq]; constructor <;> field_simp <;> ring

/-- Witness for C10 at a concrete camera (scale 2, window 800×600). -/
theorem camera_conversions_inverse_witness :
    (2 : ℚ) ≠ 0 ∧
    ((⟨⟨3, 4⟩, 2⟩ : EditorCamera).to_screen_space ⟨800, 600⟩
        ((⟨⟨3, 4⟩, 2⟩ : EditorCamera).to_world_space ⟨800, 600⟩ ⟨5, 7⟩) = ⟨5, 7⟩ ∧
      (⟨⟨3, 4⟩, 2⟩ : EditorCamera).to_world_space ⟨800, 600⟩
        ((⟨⟨3, 4⟩, 2⟩ : EditorCamera).to_screen_space ⟨800, 600⟩ ⟨1, 2⟩) = ⟨1, 2⟩) :=
  ⟨by norm_num, camera_conversions_inverse ⟨800, 600⟩ ⟨⟨3, 4⟩, 2⟩ ⟨5, 7⟩ ⟨1, 2⟩ (by norm_num)⟩

/-- The undoable action constructed by `Editor::apply_action` for each
history-routed `EditorAction` variant; `none` for the variants that do not
touch the history. -/
def toUndoable : EditorAction → Option MapAction
  | .setLayerDrawOrderIndex id index => some (.setLayerDrawOrderIndex id index none)
  | .createLayer id kind has_collision index => some (.createLayer id kind has_collision index)
  | .deleteLayer id => some (.deleteLayer id none)
  | .updateObject layer_id index id kind position =>
    some (.updateObject layer_id index id kind position none)
  | .moveSpawnPoint index position => some (.moveSpawnPoint index position none)
  | .deleteObject index layer_id => some (.deleteObject index layer_id none)
  | .removeTile layer_id coords => some (.removeTile layer_id coords none)
  | .deleteSpawnPoint index => some (.deleteSpawnPoint index none)
  | _ => none

/-- C5: every history operation invoked from `apply_action` that returns
an error makes `apply_action` panic (embedded as `none`): an error from
`history.undo`, from `history.redo`, or from `history.apply` of the
undoable action a variant wraps is never survived. -/
theorem apply_action_fatal_on_history_error (env : EditorEnv) (s : EditorState) :
    (∀ e, EditorHistory.undoAct mapActionOps s.history s.map = .error e →
      applyAction env .undo s = none) ∧
    (∀ e, EditorHistory.redoAct mapActionOps s.history s.map = .error e →
      applyAction env .redo s = none) ∧
    (∀ a ma e, toUndoable a = some ma →
      EditorHistory.applyAct mapActionOps ma s.history s.map = .error e →
      applyAction env a s = none) := by
  refine ⟨fun e he => ?_, fun e he => ?_, fun a ma e hma he => ?_⟩
  · simp [applyAction, dispatch, he]
  · simp [applyAction, dispatch, he]
  · cases a <;> simp_all [toUndoable, applyAction, dispatch, routeHistory]

/-- Witness for C5: deleting a nonexistent layer makes the history apply
fail, and the dispatch panics. -/
theorem apply_action_fatal_on_history_error_witness :
    toUndoable (.deleteLayer "x") = some (.deleteLayer "x" none) ∧
    EditorHistory.applyAct mapActionOps (.deleteLayer "x" none)
      (baseState (mapWith [] [])).history (baseState (mapWith [] [])).map =
      .error "no layer with id" ∧
    applyAction env0 (.deleteLayer "x") (baseState (mapWith [] [])) = none :=
  ⟨by decide, by rfl,
    (apply_action_fatal_on_history_error env0 (baseState (mapWith [] []))).2.2
      (.deleteLayer "x") (.deleteLayer "x" none) "no layer with id"
      (by decide) (by rfl)⟩

/-! ### Preservation lemmas for the `update_context` passes -/

theorem updateContextLayer_map_resource (s : EditorState) :
    (updateContextLayer s).map_resource = s.map_resource := by
  unfold updateContextLayer; repeat' split
  all_goals rfl

theorem updateContextKind_map_resource {s s' : EditorState}
    (h : updateContextKind s = some s') : s'.map_resource = s.map_resource := by
  unfold updateContextKind at h
  repeat' split at h
  all_goals injection h
  all_goals (rename_i h; subst h; rfl)

theorem updateContextTileset_map_resource (s : EditorState) :
    (updateContextTileset s).map_resource = s.map_resource := by
  unfold updateContextTileset; repeat' split
  all_goals rfl

theorem updateContextTool_map_resource (env : EditorEnv) (s : EditorState) :
    (updateContextTool env s).map_resource = s.map_resource := by
  unfold updateContextTool; repeat' split
  all_goals rfl

theorem updateContext_map_resource {env : EditorEnv} {s s' : EditorState}
    (h : updateContext env s = some s') : s'.map_resource = s.map_resource := by
  unfold updateContext at h
  split at h
  · exact absurd h (by simp)
  · rename_i s₁ h₁
    have := updateContextKind_map_resource h₁
    simp only [Option.some.injEq] at h
    subst h
    rw [updateContextTool_map_resource, updateContextTileset_map_resource, this,
      updateContextLayer_map_resource]

/-- Well-formedness half of the map invariant: every id in `draw_order`
resolves to a layer. -/
def MapWf (m : Map) : Prop :=
  ∀ id ∈ m.draw_order, (m.getLayer id).isSome = true

instance (m : Map) : Decidable (MapWf m) := by
  unfold MapWf; infer_instance

/-- The layer pass leaves a selected layer only when it is in
`draw_order`. -/
theorem updateContextLayer_mem {s : EditorState} {l : String}
    (h : (updateContextLayer s).selected_layer = some l) :
    l ∈ s.map.draw_order := by
  unfold updateContextLayer at h
  repeat' split at h
  all_goals simp_all
  rename_i h'
  exact List.mem_of_mem_head? (by simp [h', h])

/-- The layer pass only touches `selected_layer`. -/
theorem updateContextLayer_eq (s : EditorState) :
    updateContextLayer s =
      { s with selected_layer := (updateContextLayer s).selected_layer } := by
  unfold updateContextLayer; repeat' split
  all_goals rfl

/-- Under `MapWf` the repair pass never panics (the kind pass's layer
lookup succeeds). -/
theorem updateContext_isSome (env : EditorEnv) (s : EditorState)
    (hwf : MapWf s.map) : (updateContext env s).isSome = true := by
  unfold updateContext
  split
  · rename_i hk
    exfalso
    unfold updateContextKind at hk
    split at hk
    · simp_all
    · rename_i l hl
      have hmem : l ∈ s.map.draw_order := updateContextLayer_mem hl
      have : ((updateContextLayer s).map.getLayer l).isSome = true := by
        have hmr := updateContextLayer_map_resource s
        show ((updateContextLayer s).map_resource.map.getLayer l).isSome = true
        rw [hmr]; exact hwf l hmem
      split at hk
      · simp_all
      · split at hk <;> simp_all
  · simp

/-- Helper for the saved resource `Editor::apply_action (SaveMap)` builds:
optional rename, then mark as a user (non-Tiled) map. -/
def savedResource (env : EditorEnv) (name : Option String) (mr : MapResource) :
    MapResource :=
  let mr := match name with
    | some n => { mr with meta := { mr.meta with name := n, path := env.map_path n } }
    | none => mr
  { mr with meta := { mr.meta with is_user_map := true, is_tiled_map := false } }

/-- C9: dispatching `SaveMap` never panics (under the draw-order/layers
invariant), and it is atomic: when the external `save_map` fails the
`map_resource` is untouched; when it succeeds the resource is replaced by
the saved one, whose flags are set and whose map document is unchanged. -/
theorem save_map_never_panics_and_atomic (env : EditorEnv) (s : EditorState)
    (name : Option String) (hwf : MapWf s.map) :
    ∃ s', applyAction env (.saveMap name) s = some s' ∧
      (env.save_ok (savedResource env name s.map_resource) = false →
        s'.map_resource = s.map_resource) ∧
      (env.save_ok (savedResource env name s.map_resource) = true →
        s'.map_resource = savedResource env name s.map_resource) ∧
      (savedResource env name s.map_resource).meta.is_user_map = true ∧
      (savedResource env name s.map_resource).meta.is_tiled_map = false ∧
      (savedResource env name s.map_resource).map = s.map := by
  have hdisp : dispatch env (.saveMap name) s =
      (if env.save_ok (savedResource env name s.map_resource) then
        { s with map_resource := savedResource env name s.map_resource }
      else s, .ok ()) := by
    cases name <;> simp only [dispatch, savedResource] <;> split <;> rfl
  by_cases hok : env.save_ok (savedResource env name s.map_resource) = true
  · set s₂ : EditorState := { s with map_resource := savedResource env name s.map_resource }
      with hs₂
    have hwf₂ : MapWf s₂.map := by
      have : s₂.map = s.map := by
        simp only [hs₂, EditorState.map]
        unfold savedResource
        cases name <;> rfl
      rw [this]; exact hwf
    have hsome := updateContext_isSome env s₂ hwf₂
    obtain ⟨s', hs'⟩ := Option.isSome_iff_exists.mp hsome
    refine ⟨s', ?_, ?_, ?_, ?_, ?_, ?_⟩
    · unfold applyAction
      rw [hdisp, if_pos hok]
      exact hs'
    · intro hcon; rw [hok] at hcon; exact absurd hcon (by simp)
    · intro _
      rw [updateContext_map_resource hs']
    · unfold savedResource; cases name <;> rfl
    · unfold savedResource; cases name <;> rfl
    · unfold savedResource; cases name <;> rfl
  · have hsome := updateContext_isSome env s hwf
    obtain ⟨s', hs'⟩ := Option.isSome_iff_exists.mp hsome
    refine ⟨s', ?_, ?_, ?_, ?_, ?_, ?_⟩
    · unfold applyAction
      rw [hdisp, if_neg hok]
      exact hs'
    · intro _; exact updateContext_map_resource hs'
    · intro h; exact absurd h hok
    · unfold savedResource; cases name <;> rfl
    · unfold savedResource; cases name <;> rfl
    · unfold savedResource; cases name <;> rfl

/-- Witness for C9 at a concrete editor state and save name. -/
theorem save_map_never_panics_and_atomic_witness :
    MapWf (mapWith [("a", tileLayer0 "a")] ["a"]) ∧
    ∃ s', applyAction env0 (.saveMap (some "out"))
        (baseState (mapWith [("a", tileLayer0 "a")] ["a"])) = some s' ∧
      (env0.save_ok (savedResource env0 (some "out")
          (baseState (mapWith [("a", tileLayer0 "a")] ["a"])).map_resource) = false →
        s'.map_resource = (baseState (mapWith [("a", tileLayer0 "a")] ["a"])).map_resource) ∧
      (env0.save_ok (savedResource env0 (some "out")
          (baseState (mapWith [("a", tileLayer0 "a")] ["a"])).map_resource) = true →
        s'.map_resource = savedResource env0 (some "out")
          (baseState (mapWith [("a", tileLayer0 "a")] ["a"])).map_resource) ∧
      (savedResource env0 (some "out")
          (baseState (mapWith [("a", tileLayer0 "a")] ["a"])).map_resource).meta.is_user_map
        = true ∧
      (savedResource env0 (some "out")
          (baseState (mapWith [("a", tileLayer0 "a")] ["a"])).map_resource).meta.is_tiled_map
        = false ∧
      (savedResource env0 (some "out")
          (baseState (mapWith [("a", tileLayer0 "a")] ["a"])).map_resource).map =
        (baseState (mapWith [("a", tileLayer0 "a")] ["a"])).map :=
  ⟨by decide,
    save_map_never_panics_and_atomic env0 (baseState (mapWith [("a", tileLayer0 "a")] ["a"]))
      (some "out") (by decide)⟩

/-! ### Selection-repair stabilization (C2) -/

/-- C2 counterexample: with a dangling layer selection (`"gone"` was
deleted) over a map whose draw order is `["a"]`, the first repair call
clears the selection and the second call then selects `"a"`: calling
`update_context` twice does not equal calling it once. -/
theorem update_context_not_idempotent :
    ((updateContext env0
        { baseState (mapWith [("a", tileLayer0 "a")] ["a"]) with
          selected_layer := some "gone" }).bind (updateContext env0)) ≠
      updateContext env0
        { baseState (mapWith [("a", tileLayer0 "a")] ["a"]) with
          selected_layer := some "gone" } := by decide

theorem updateContextKind_fields {s s' : EditorState}
    (h : updateContextKind s = some s') :
    s'.selected_layer = s.selected_layer ∧ s'.selected_tool = s.selected_tool := by
  unfold updateContextKind at h
  repeat' split at h
  all_goals injection h
  all_goals (rename_i h; subst h; exact ⟨rfl, rfl⟩)

theorem updateContextTileset_fields (s : EditorState) :
    (updateContextTileset s).selected_layer = s.selected_layer ∧
    (updateContextTileset s).selected_object = s.selected_object ∧
    (updateContextTileset s).selected_tool = s.selected_tool := by
  unfold updateContextTileset; repeat' split
  all_goals exact ⟨rfl, rfl, rfl⟩

theorem updateContextTool_cases (env : EditorEnv) (s : EditorState) :
    updateContextTool env s = s ∨
      updateContextTool env s = { s with selected_tool := none } := by
  unfold updateContextTool; repeat' split
  all_goals simp

/-- Structure-eta helpers: a field update with the value already stored is
the identity. -/
theorem eta_selected_object {s : EditorState} (h : s.selected_object = none) :
    ({ s with selected_object := none } : EditorState) = s := by
  cases s; subst h; rfl

theorem eta_selected_tileset_tile {s : EditorState} (h : s.selected_tileset = none)
    (h' : s.selected_tile = none) :
    ({ s with selected_tileset := none, selected_tile := none } : EditorState) = s := by
  cases s; subst h; subst h'; rfl

/-- A state on which every repair pass is the identity: the layer
selection matches draw order (or the draw order is empty), the kind-based
clears are already done, the tileset/tile selection is valid, and the
selected tool is available. -/
theorem updateContext_fixpoint (env : EditorEnv) (s : EditorState)
    (h1 : ∀ l, s.selected_layer = some l → s.map.draw_order.contains l = true)
    (h1' : s.selected_layer = none → s.map.draw_order = [])
    (h2 : ∀ l, s.selected_layer = some l → ∃ layer, s.map.getLayer l = some layer ∧
      (layer.kind = .tileLayer → s.selected_object = none) ∧
      (layer.kind = .objectLayer → s.selected_tileset = none ∧ s.selected_tile = none))
    (h3 : ∀ t, s.selected_tileset = some t → ∃ ts, s.map.getTileset t = some ts ∧
      ∀ tid, s.selected_tile = some tid → tid < ts.tile_cnt)
    (h4 : ∀ tool, s.selected_tool = some tool →
      env.is_available tool s.map s.get_context = true) :
    updateContext env s = some s := by
  have hL : updateContextLayer s = s := by
    unfold updateContextLayer
    cases hsel : s.selected_layer with
    | some l => dsimp only; rw [h1 l hsel]; rfl
    | none => dsimp only; rw [h1' hsel]; rfl
  have hK : updateContextKind s = some s := by
    unfold updateContextKind
    cases hsel : s.selected_layer with
    | none => rfl
    | some l =>
      obtain ⟨layer, hlayer, htile, hobj⟩ := h2 l hsel
      dsimp only
      rw [hlayer]
      dsimp only
      cases hk : layer.kind with
      | tileLayer =>
        dsimp only
        rw [← hsel, eta_selected_object (htile hk)]
      | objectLayer =>
        obtain ⟨ht, ht'⟩ := hobj hk
        dsimp only
        rw [← hsel, eta_selected_tileset_tile ht ht']
  have hT : updateContextTileset s = s := by
    unfold updateContextTileset
    cases hts : s.selected_tileset with
    | none => rfl
    | some t =>
      obtain ⟨ts, hts', htid⟩ := h3 t hts
      dsimp only
      rw [hts']
      dsimp only
      cases htile : s.selected_tile with
      | none => rfl
      | some tid =>
        have := htid tid htile
        dsimp only
        rw [if_neg (Nat.not_le.mpr this)]
  have hW : updateContextTool env s = s := by
    unfold updateContextTool
    cases htool : s.selected_tool with
    | none => rfl
    | some tool => dsimp only; rw [if_pos (h4 tool htool)]
  unfold updateContext
  rw [hL, hK]
  dsimp only
  rw [hT, hW]

theorem updateContext_cases {env : EditorEnv} {s s' : EditorState}
    (h : updateContext env s = some s') :
    ∃ sk, updateContextKind (updateContextLayer s) = some sk ∧
      s' = updateContextTool env (updateContextTileset sk) := by
  unfold updateContext at h
  split at h
  · exact Option.noConfusion h
  · rename_i sk hk
    injection h with h
    exact ⟨sk, hk, h.symm⟩

theorem updateContextTool_fields (env : EditorEnv) (s : EditorState) :
    (updateContextTool env s).selected_layer = s.selected_layer ∧
    (updateContextTool env s).selected_tileset = s.selected_tileset ∧
    (updateContextTool env s).selected_tile = s.selected_tile ∧
    (updateContextTool env s).selected_object = s.selected_object := by
  rcases updateContextTool_cases env s with h | h <;> rw [h] <;> exact ⟨rfl, rfl, rfl, rfl⟩

/-- The kind pass, when it succeeds with a layer selected, certifies the
layer lookup and performs the kind-determined clears. -/
theorem updateContextKind_out {s s' : EditorState} (h : updateContextKind s = some s')
    {l : String} (hl : s'.selected_layer = some l) :
    ∃ layer, s.map.getLayer l = some layer ∧
      (layer.kind = .tileLayer → s'.selected_object = none) ∧
      (layer.kind = .objectLayer → s'.selected_tileset = none ∧ s'.selected_tile = none) := by
  have hlay := (updateContextKind_fields h).1
  unfold updateContextKind at h
  split at h
  · rename_i hsel
    injection h
    rename_i h
    subst h
    rw [hl] at hsel
    exact Option.noConfusion hsel
  · rename_i l' hsel
    split at h
    · exact Option.noConfusion h
    · rename_i layer hlayer
      have : l' = l := by
        rw [hsel] at hlay
        rw [hl] at hlay
        exact (Option.some.injEq _ _ ▸ hlay).symm
      subst this
      split at h
      all_goals injection h
      all_goals rename_i hk h
      all_goals subst h
      · exact ⟨layer, hlayer, fun _ => rfl, fun hc => absurd (hk ▸ hc) (by simp [hk])⟩
      · refine ⟨layer, hlayer, fun hc => ?_, fun _ => ⟨rfl, rfl⟩⟩
        rw [hk] at hc
        exact absurd hc (by simp)

/-- The tileset pass certifies the tileset lookup and the tile bound of
whatever selection it leaves behind. -/
theorem T_id_of_no_tileset {s : EditorState} (h : s.selected_tileset = none) :
    updateContextTileset s = s := by
  unfold updateContextTileset
  rw [h]

theorem updateContextTileset_out (s : EditorState) {t : String}
    (h : (updateContextTileset s).selected_tileset = some t) :
    ∃ ts, s.map.getTileset t = some ts ∧
      ∀ tid, (updateContextTileset s).selected_tile = some tid → tid < ts.tile_cnt := by
  cases hsel : s.selected_tileset with
  | none =>
    rw [T_id_of_no_tileset hsel, hsel] at h
    exact Option.noConfusion h
  | some t' =>
    cases hts : s.map.getTileset t' with
    | none =>
      have hT : updateContextTileset s =
          { s with selected_tileset := none, selected_tile := none } := by
        unfold updateContextTileset; rw [hsel]; dsimp only; rw [hts]
      rw [hT] at h
      exact Option.noConfusion h
    | some ts =>
      cases htile : s.selected_tile with
      | none =>
        have hT : updateContextTileset s = s := by
          unfold updateContextTileset; rw [hsel]; dsimp only; rw [hts]; dsimp only
          rw [htile]
        rw [hT] at h ⊢
        rw [hsel] at h
        have ht' : t' = t := Option.some.inj h
        subst ht'
        refine ⟨ts, hts, fun tid htid => ?_⟩
        rw [htile] at htid
        exact Option.noConfusion htid
      | some tid' =>
        by_cases hle : ts.tile_cnt ≤ tid'
        · have hT : updateContextTileset s = { s with selected_tile := none } := by
            unfold updateContextTileset; rw [hsel]; dsimp only; rw [hts]; dsimp only
            rw [htile]; dsimp only; rw [if_pos hle]
          rw [hT] at h ⊢
          have ht' : t' = t := by
            simpa [hsel] using h
          subst ht'
          refine ⟨ts, hts, fun tid htid => ?_⟩
          exact Option.noConfusion htid
        · have hT : updateContextTileset s = s := by
            unfold updateContextTileset; rw [hsel]; dsimp only; rw [hts]; dsimp only
            rw [htile]; dsimp only; rw [if_neg hle]
          rw [hT] at h ⊢
          rw [hsel] at h
          have ht' : t' = t := Option.some.inj h
          subst ht'
          refine ⟨ts, hts, fun tid htid => ?_⟩
          rw [htile] at htid
          have := Option.some.inj htid
          subst this
          exact Nat.not_le.mp hle

/-- The tool pass certifies availability of whatever tool it keeps. -/
theorem updateContextTool_out (env : EditorEnv) (s : EditorState) {tool : ToolId}
    (h : (updateContextTool env s).selected_tool = some tool) :
    env.is_available tool (updateContextTool env s).map
      (updateContextTool env s).get_context = true := by
  cases hsel : s.selected_tool with
  | none =>
    have hW : updateContextTool env s = s := by
      unfold updateContextTool; rw [hsel]
    rw [hW, hsel] at h
    exact Option.noConfusion h
  | some t' =>
    by_cases hav : env.is_available t' s.map s.get_context = true
    · have hW : updateContextTool env s = s := by
        unfold updateContextTool; rw [hsel]; dsimp only; rw [if_pos hav]
      rw [hW] at h ⊢
      rw [hsel] at h
      have : t' = tool := Option.some.inj h
      subst this
      exact hav
    · have hW : updateContextTool env s = { s with selected_tool := none } := by
        unfold updateContextTool; rw [hsel]; dsimp only
        rw [if_neg hav]
      rw [hW] at h
      exact Option.noConfusion h

/-- One repair pass leaves only layer selections that are in draw
order. -/
theorem updateContext_layer_valid {env : EditorEnv} {s s' : EditorState}
    (h : updateContext env s = some s') :
    ∀ l, s'.selected_layer = some l → l ∈ s'.map.draw_order := by
  intro l hl
  obtain ⟨sk, hk, hs'⟩ := updateContext_cases h
  have hmap : s'.map = s.map := by
    show s'.map_resource.map = s.map_resource.map
    rw [updateContext_map_resource h]
  have h1 : s'.selected_layer = sk.selected_layer := by
    rw [hs', (updateContextTool_fields env _).1, (updateContextTileset_fields _).1]
  have h2 : sk.selected_layer = (updateContextLayer s).selected_layer :=
    (updateContextKind_fields hk).1
  rw [hmap]
  exact updateContextLayer_mem (h2 ▸ h1 ▸ hl)

/-- If nothing ends up selected although every dangling selection had
already been cleared, the draw order is empty. -/
theorem updateContextLayer_none {s : EditorState}
    (hmem : ∀ l, s.selected_layer = some l → l ∈ s.map.draw_order)
    (h : (updateContextLayer s).selected_layer = none) :
    s.map.draw_order = [] := by
  unfold updateContextLayer at h
  split at h
  · rename_i l hsel
    split at h
    · rw [hsel] at h
      exact Option.noConfusion h
    · rename_i hc
      exact absurd (by simpa using hmem l hsel) hc
  · rename_i hsel
    split at h
    · exact Option.noConfusion h
    · rename_i hh
      exact List.head?_eq_none_iff.mp hh

/-- C2 (amended): the repair pass stabilizes after two calls — the second
call can still change the state (see the counterexample), but a third call
changes nothing. -/
theorem update_context_stabilizes (env : EditorEnv) (s0 s1 s2 : EditorState)
    (ha : updateContext env s0 = some s1) (hb : updateContext env s1 = some s2) :
    updateContext env s2 = some s2 := by
  obtain ⟨sk, hk, hs2⟩ := updateContext_cases hb
  have hmapK : sk.map_resource = s1.map_resource := by
    rw [updateContextKind_map_resource hk, updateContextLayer_map_resource]
  have hmap2 : s2.map_resource = s1.map_resource := updateContext_map_resource hb
  have hlay2 : s2.selected_layer = sk.selected_layer := by
    rw [hs2, (updateContextTool_fields env _).1, (updateContextTileset_fields _).1]
  have hlayK : sk.selected_layer = (updateContextLayer s1).selected_layer :=
    (updateContextKind_fields hk).1
  have hobj2 : s2.selected_object = (updateContextTileset sk).selected_object := by
    rw [hs2, (updateContextTool_fields env _).2.2.2]
  have hts2 : s2.selected_tileset = (updateContextTileset sk).selected_tileset := by
    rw [hs2, (updateContextTool_fields env _).2.1]
  have htile2 : s2.selected_tile = (updateContextTileset sk).selected_tile := by
    rw [hs2, (updateContextTool_fields env _).2.2.1]
  apply updateContext_fixpoint
  · -- selected layers are in draw order
    intro l hl
    simpa using updateContext_layer_valid hb l hl
  · -- no selection only with an empty draw order
    intro hnone
    have : (updateContextLayer s1).selected_layer = none := by
      rw [← hlayK, ← hlay2]; exact hnone
    have hd : s1.map.draw_order = [] :=
      updateContextLayer_none (updateContext_layer_valid ha) this
    show s2.map_resource.map.draw_order = []
    rw [hmap2]; exact hd
  · -- kind-determined clears are in place
    intro l hl
    obtain ⟨layer, hlayer, htile, hobj⟩ := updateContextKind_out hk (hlay2 ▸ hl)
    refine ⟨layer, ?_, ?_, ?_⟩
    · show s2.map_resource.map.getLayer l = some layer
      rw [hmap2]
      have : (updateContextLayer s1).map_resource = s1.map_resource :=
        updateContextLayer_map_resource s1
      rw [show (updateContextLayer s1).map = s1.map from congrArg MapResource.map this] at hlayer
      exact hlayer
    · intro hkind
      rw [hobj2, (updateContextTileset_fields sk).2.1, htile hkind]
    · intro hkind
      obtain ⟨h₁, h₂⟩ := hobj hkind
      have hT := T_id_of_no_tileset h₁
      constructor
      · rw [hts2, hT]; exact h₁
      · rw [htile2, hT]; exact h₂
  · -- tileset/tile selections are valid
    intro t ht
    obtain ⟨ts, hts, htid⟩ := updateContextTileset_out sk (hts2 ▸ ht)
    refine ⟨ts, ?_, ?_⟩
    · show s2.map_resource.map.getTileset t = some ts
      rw [hmap2, ← hmapK]
      exact hts
    · intro tid htid'
      exact htid tid (htile2 ▸ htid')
  · -- the kept tool is available
    intro tool htool
    have := updateContextTool_out env (updateContextTileset sk) (hs2 ▸ htool)
    rw [← hs2] at this
    exact this

/-- Witness for the amended C2 at the counterexample state: two repair
calls reach a state the third call leaves unchanged. -/
theorem update_context_stabilizes_witness :
    ∃ s1 s2, updateContext env0
        { baseState (mapWith [("a", tileLayer0 "a")] ["a"]) with
          selected_layer := some "gone" } = some s1 ∧
      updateContext env0 s1 = some s2 ∧ updateContext env0 s2 = some s2 := by
  have h1 : updateContext env0
      { baseState (mapWith [("a", tileLayer0 "a")] ["a"]) with
        selected_layer := some "gone" } =
      some { baseState (mapWith [("a", tileLayer0 "a")] ["a"]) with
        selected_layer := none } := by decide
  have h2 : updateContext env0
      ({ baseState (mapWith [("a", tileLayer0 "a")] ["a"]) with
        selected_layer := none } : EditorState) =
      some { baseState (mapWith [("a", tileLayer0 "a")] ["a"]) with
        selected_layer := some "a" } := by decide
  exact ⟨_, _, h1, h2, update_context_stabilizes env0 _ _ _ h1 h2⟩

/-! ### DeleteLayer and the layer selection (C3) -/

/-- C3 counterexample: deleting the selected layer `"objects"` from a map
whose draw order is `["objects", "a"]` succeeds and leaves draw order
`["a"]`, but the dispatch's own repair pass leaves `selected_layer = none`
rather than the new first entry `"a"`. -/
theorem delete_selected_layer_cex :
    (applyAction env0 (.deleteLayer "objects")
        { baseState (mapWith [("objects", objectLayer0 "objects" []), ("a", tileLayer0 "a")]
            ["objects", "a"]) with
          selected_layer := some "objects" }).map
        (fun s => (s.map.draw_order, s.selected_layer)) = some (["a"], none) := by
  decide

theorem updateContextKind_selected_layer {s s' : EditorState}
    (h : updateContextKind s = some s') : s'.selected_layer = s.selected_layer :=
  (updateContextKind_fields h).1

/-- C3 (amended): dispatching `DeleteLayer(id)` while `id` is the selected
layer leaves `selected_layer = none`; it is only the next repair call (the
one `Editor::update` runs at the start of the following frame) that then
resolves the selection to the new first entry of `draw_order` (or leaves
`none` when it is empty). -/
theorem delete_selected_layer (env : EditorEnv) (s : EditorState) (id : String)
    (s₁ : EditorState) (hnd : s.map.draw_order.Nodup) (hsel : s.selected_layer = some id)
    (happ : applyAction env (.deleteLayer id) s = some s₁) :
    s₁.selected_layer = none ∧
    ∀ s₂, updateContext env s₁ = some s₂ →
      s₂.selected_layer = s₁.map.draw_order.head? := by
  -- unpack the dispatch: the history apply must have succeeded
  have hdisp : ∃ sd, dispatch env (.deleteLayer id) s = (sd, .ok ()) ∧
      updateContext env sd = some s₁ ∧
      sd.selected_layer = some id ∧ ¬ sd.map.draw_order.contains id = true := by
    unfold applyAction at happ
    split at happ
    · exact Option.noConfusion happ
    · rename_i sd hres
      refine ⟨sd, ?_, happ, ?_, ?_⟩
      · rw [hres]
      · -- dispatch routes through the history and only replaces history/map
        have : dispatch env (.deleteLayer id) s =
            routeHistory (.deleteLayer id none) s := by rfl
        rw [this] at hres
        unfold routeHistory at hres
        split at hres
        · exact absurd (congrArg Prod.snd hres) (by simp)
        · have := congrArg Prod.fst hres
          simp only at this
          rw [← this]
          exact hsel
      · -- after a successful delete, id is gone from draw_order
        have : dispatch env (.deleteLayer id) s =
            routeHistory (.deleteLayer id none) s := by rfl
        rw [this] at hres
        unfold routeHistory at hres
        split at hres
        · exact absurd (congrArg Prod.snd hres) (by simp)
        · rename_i h' m hhm
          have hfst := congrArg Prod.fst hres
          simp only at hfst
          unfold EditorHistory.applyAct at hhm
          split at hhm
          · exact Except.noConfusion hhm
          · rename_i a' m' happ'
            replace happ' : MapAction.applyTo (.deleteLayer id none) s.map =
                .ok (a', m') := happ'
            simp only [MapAction.applyTo] at happ'
            split at happ'
            · exact Except.noConfusion happ'
            · rename_i layer hlayer
              have hm' : m' = { s.map with
                  layers := alistRemove id s.map.layers
                  draw_order := s.map.draw_order.erase id } := by
                injection happ' with h''
                exact (congrArg Prod.snd h'').symm
              have hmm : m = m' := by
                injection hhm with h''
                exact (congrArg Prod.snd h'').symm
              rw [← hfst]
              show ¬ m.draw_order.contains id = true
              rw [hmm, hm']
              simp only [List.contains_iff_exists_mem_beq]
              intro hcon
              obtain ⟨x, hx, hbeq⟩ := hcon
              have : x = id := by
                have := by simpa using hbeq
                exact this.symm
              subst this
              exact (hnd.mem_erase_iff).mp hx |>.1 rfl
  obtain ⟨sd, hd, hctx, hsd, hnotin⟩ := hdisp
  have hLnone : (updateContextLayer sd).selected_layer = none := by
    unfold updateContextLayer
    rw [hsd]
    dsimp only
    rw [if_neg (by simpa using hnotin)]
  obtain ⟨sk, hk, hs₁⟩ := updateContext_cases hctx
  have h₁ : s₁.selected_layer = none := by
    rw [hs₁, (updateContextTool_fields env _).1, (updateContextTileset_fields _).1,
      updateContextKind_selected_layer hk, hLnone]
  refine ⟨h₁, fun s₂ hctx₂ => ?_⟩
  obtain ⟨sk₂, hk₂, hs₂⟩ := updateContext_cases hctx₂
  have hL₂ : (updateContextLayer s₁).selected_layer = s₁.map.draw_order.head? := by
    unfold updateContextLayer
    rw [h₁]
    dsimp only
    cases hh : s₁.map.draw_order.head? <;> simp [hh, h₁]
  rw [hs₂, (updateContextTool_fields env _).1, (updateContextTileset_fields _).1,
    updateContextKind_selected_layer hk₂, hL₂]

/-- Witness for the amended C3 at the counterexample state. -/
theorem delete_selected_layer_witness :
    ∃ s₁, ({ baseState (mapWith [("objects", objectLayer0 "objects" []),
          ("a", tileLayer0 "a")] ["objects", "a"]) with
        selected_layer := some "objects" } : EditorState).map.draw_order.Nodup ∧
      applyAction env0 (.deleteLayer "objects")
        { baseState (mapWith [("objects", objectLayer0 "objects" []),
            ("a", tileLayer0 "a")] ["objects", "a"]) with
          selected_layer := some "objects" } = some s₁ ∧
      s₁.selected_layer = none ∧
      ∀ s₂, updateContext env0 s₁ = some s₂ →
        s₂.selected_layer = s₁.map.draw_order.head? := by
  have happ : applyAction env0 (.deleteLayer "objects")
      { baseState (mapWith [("objects", objectLayer0 "objects" []),
          ("a", tileLayer0 "a")] ["objects", "a"]) with
        selected_layer := some "objects" } =
      some { baseState (mapWith [("objects", objectLayer0 "objects" []),
          ("a", tileLayer0 "a")] ["objects", "a"]) with
        map_resource := ⟨⟨"m", "m", false, false⟩,
          mapWith [("a", tileLayer0 "a")] ["a"]⟩
        selected_layer := none
        history := ⟨[.deleteLayer "objects"
          (some (objectLayer0 "objects" [], 0, 0))], 1⟩ } := by decide
  have h := delete_selected_layer env0
      { baseState (mapWith [("objects", objectLayer0 "objects" []),
          ("a", tileLayer0 "a")] ["objects", "a"]) with
        selected_layer := some "objects" }
      "objects" _ (by decide) (by decide) happ
  exact ⟨_, by decide, happ, h⟩

/-! ### Selection-mutation validity (C4) -/

/-- C4 counterexample: `SelectObject { index: 5, layer_id: "obj" }` on a
map whose `"obj"` layer has no objects is dispatched without any bounds
check, and the repair pass does not validate object indices either: after
dispatch, `selected_object = Some(5)` although the layer has 0 objects. -/
theorem select_object_unvalidated_cex :
    (applyAction env0 (.selectObject 5 "obj")
        (baseState (mapWith [("obj", objectLayer0 "obj" [])] ["obj"]))).map
      (fun s => (s.selected_object, (s.map.getLayer "obj").map (fun l => l.objects.length)))
      = some (some 5, some 0) := by decide

/-- The selection-mutation `EditorAction` variants. -/
def isSelectionAction : EditorAction → Prop
  | .selectTool _ => True
  | .selectLayer _ => True
  | .selectTileset _ => True
  | .selectTile _ _ => True
  | .selectObject _ _ => True
  | _ => False

/-- C4 (amended): dispatching any of the five selection-mutation actions
never leaves a dangling layer or tileset selection, and any selected tile
is within the selected tileset's tile count — but the object-index clause
of the claim fails: `SelectObject` is not validated (see the
counterexample). -/
theorem selection_actions_valid (env : EditorEnv) (s s' : EditorState)
    (a : EditorAction) (_hsel : isSelectionAction a)
    (h : applyAction env a s = some s') :
    (∀ l, s'.selected_layer = some l → l ∈ s'.map.draw_order ∧
      (s'.map.getLayer l).isSome = true) ∧
    (∀ t, s'.selected_tileset = some t → (s'.map.getTileset t).isSome = true) ∧
    (∀ t tid, s'.selected_tileset = some t → s'.selected_tile = some tid →
      ∃ ts, s'.map.getTileset t = some ts ∧ tid < ts.tile_cnt) := by
  -- all three clauses are postconditions of the repair pass alone
  have hctx : ∃ sd, updateContext env sd = some s' ∧ sd.map = s'.map := by
    unfold applyAction at h
    split at h
    · exact Option.noConfusion h
    · rename_i sd hres
      refine ⟨sd, h, ?_⟩
      show sd.map_resource.map = s'.map_resource.map
      rw [updateContext_map_resource h]
  obtain ⟨sd, hctx, hmap⟩ := hctx
  obtain ⟨sk, hk, hs'⟩ := updateContext_cases hctx
  have hmapK : sk.map = sd.map := by
    show sk.map_resource.map = sd.map_resource.map
    rw [updateContextKind_map_resource hk, updateContextLayer_map_resource]
  refine ⟨fun l hl => ⟨updateContext_layer_valid hctx l hl, ?_⟩, fun t ht => ?_, ?_⟩
  · -- the kind pass certified the layer lookup
    have h₁ : s'.selected_layer = sk.selected_layer := by
      rw [hs', (updateContextTool_fields env _).1, (updateContextTileset_fields _).1]
    obtain ⟨layer, hlayer, -, -⟩ := updateContextKind_out hk (h₁ ▸ hl)
    have : (updateContextLayer sd).map = sd.map := by
      show (updateContextLayer sd).map_resource.map = sd.map_resource.map
      rw [updateContextLayer_map_resource]
    rw [← hmap, ← this, hlayer]
    rfl
  · have h₁ : s'.selected_tileset = (updateContextTileset sk).selected_tileset := by
      rw [hs', (updateContextTool_fields env _).2.1]
    obtain ⟨ts, hts, -⟩ := updateContextTileset_out sk (h₁ ▸ ht)
    rw [← hmap, ← hmapK, hts]
    rfl
  · intro t tid ht htid
    have h₁ : s'.selected_tileset = (updateContextTileset sk).selected_tileset := by
      rw [hs', (updateContextTool_fields env _).2.1]
    have h₂ : s'.selected_tile = (updateContextTileset sk).selected_tile := by
      rw [hs', (updateContextTool_fields env _).2.2.1]
    obtain ⟨ts, hts, hbound⟩ := updateContextTileset_out sk (h₁ ▸ ht)
    refine ⟨ts, ?_, hbound tid (h₂ ▸ htid)⟩
    rw [← hmap, ← hmapK]
    exact hts

/-- Witness for the amended C4: selecting an existing layer on a concrete
map, with the validity clauses checked on the result. -/
theorem selection_actions_valid_witness :
    isSelectionAction (.selectLayer "a") ∧
    ∃ s', applyAction env0 (.selectLayer "a")
        (baseState (mapWith [("a", tileLayer0 "a")] ["a"])) = some s' ∧
      ((∀ l, s'.selected_layer = some l → l ∈ s'.map.draw_order ∧
          (s'.map.getLayer l).isSome = true) ∧
        (∀ t, s'.selected_tileset = some t → (s'.map.getTileset t).isSome = true) ∧
        (∀ t tid, s'.selected_tileset = some t → s'.selected_tile = some tid →
          ∃ ts, s'.map.getTileset t = some ts ∧ tid < ts.tile_cnt)) := by
  have h : applyAction env0 (.selectLayer "a")
      (baseState (mapWith [("a", tileLayer0 "a")] ["a"])) =
      some { baseState (mapWith [("a", tileLayer0 "a")] ["a"]) with
        selected_layer := some "a" } := by decide
  exact ⟨trivial, _, h,
    selection_actions_valid env0 (baseState (mapWith [("a", tileLayer0 "a")] ["a"])) _
      (.selectLayer "a") trivial h⟩

/-! ### History: fresh actions discard the undone tail (C6) -/

/-- `undo` iterated `k` times through the history. -/
def undoN {A : Type} (ops : ActionOps A) :
    Nat → EditorHistory A → Map → Except String (EditorHistory A × Map)
  | 0, h, m => .ok (h, m)
  | k + 1, h, m =>
    match EditorHistory.undoAct ops h m with
    | .error e => .error e
    | .ok (h', m') => undoN ops k h' m'

/-- Undoing `k ≤ cursor` steps leaves the stack untouched and moves the
cursor down by `k`. -/
theorem undoN_stack_cursor {A : Type} (ops : ActionOps A) (k : Nat) :
    ∀ (h : EditorHistory A) (m : Map) (h₁ : EditorHistory A) (m₁ : Map),
      k ≤ h.cursor → undoN ops k h m = .ok (h₁, m₁) →
      h₁.stack = h.stack ∧ h₁.cursor = h.cursor - k := by
  induction k with
  | zero =>
    intro h m h₁ m₁ _ hu
    unfold undoN at hu
    injection hu with hu
    have h1 : h₁ = h := (congrArg Prod.fst hu).symm
    rw [h1]
    exact ⟨rfl, rfl⟩
  | succ k ih =>
    intro h m h₁ m₁ hk hu
    unfold undoN at hu
    split at hu
    · exact Except.noConfusion hu
    · rename_i h' m' hact
      unfold EditorHistory.undoAct at hact
      rw [if_neg (by omega)] at hact
      split at hact
      · exact Except.noConfusion hact
      · rename_i a ha
        split at hact
        · exact Except.noConfusion hact
        · rename_i m'' hm
          injection hact with hact
          have hh' : h' = ⟨h.stack, h.cursor - 1⟩ := (congrArg Prod.fst hact).symm
          obtain ⟨hs, hc⟩ := ih h' m' h₁ m₁ (by rw [hh']; simp; omega) hu
          rw [hh'] at hs hc
          refine ⟨hs, ?_⟩
          rw [hc, Nat.sub_sub, Nat.add_comm]

/-- C6: after undoing `k` of the applied actions (cursor at the top),
applying a fresh action discards exactly those `k` undone entries — the
new stack is the untouched prefix of earlier actions plus the fresh
action, so the undone entries can never be redone. -/
theorem history_fresh_action_discards_undone {A : Type} (ops : ActionOps A)
    (h : EditorHistory A) (m : Map) (k : Nat)
    (htop : h.cursor = h.stack.length) (hk : k ≤ h.cursor)
    {h₁ : EditorHistory A} {m₁ : Map} (hundo : undoN ops k h m = .ok (h₁, m₁))
    (a : A) {h₂ : EditorHistory A} {m₂ : Map}
    (happ : EditorHistory.applyAct ops a h₁ m₁ = .ok (h₂, m₂)) :
    ∃ a' m', ops.applyTo a m₁ = .ok (a', m') ∧
      h₂.stack = h.stack.take (h.stack.length - k) ++ [a'] ∧
      h₂.cursor = h.stack.length - k + 1 := by
  obtain ⟨hs, hc⟩ := undoN_stack_cursor ops k h m h₁ m₁ hk hundo
  unfold EditorHistory.applyAct at happ
  split at happ
  · exact Except.noConfusion happ
  · rename_i a' m' hap
    injection happ with happ
    have hh₂ : h₂ = ⟨h₁.stack.take h₁.cursor ++ [a'], h₁.cursor + 1⟩ :=
      (congrArg Prod.fst happ).symm
    exact ⟨a', m', hap, by rw [hh₂, hs, hc, htop], by rw [hh₂, hc, htop]⟩

/-- Witness for C6: two spawn-point moves applied, one undone, one fresh
move applied — the undone entry is discarded, the older one remains. -/
theorem history_fresh_action_discards_undone_witness :
    (⟨[.moveSpawnPoint 0 ⟨1, 1⟩ (some ⟨0, 0⟩), .moveSpawnPoint 0 ⟨2, 2⟩ (some ⟨1, 1⟩)], 2⟩ :
        EditorHistory MapAction).cursor =
      (⟨[.moveSpawnPoint 0 ⟨1, 1⟩ (some ⟨0, 0⟩), .moveSpawnPoint 0 ⟨2, 2⟩ (some ⟨1, 1⟩)], 2⟩ :
        EditorHistory MapAction).stack.length ∧
    1 ≤ (⟨[.moveSpawnPoint 0 ⟨1, 1⟩ (some ⟨0, 0⟩), .moveSpawnPoint 0 ⟨2, 2⟩ (some ⟨1, 1⟩)], 2⟩ :
        EditorHistory MapAction).cursor ∧
    ∃ a' m', mapActionOps.applyTo (.moveSpawnPoint 0 ⟨3, 3⟩ none)
        { mapWith [] [] with spawn_points := [⟨1, 1⟩] } = .ok (a', m') ∧
      (⟨[.moveSpawnPoint 0 ⟨1, 1⟩ (some ⟨0, 0⟩),
          .moveSpawnPoint 0 ⟨3, 3⟩ (some ⟨1, 1⟩)], 2⟩ :
        EditorHistory MapAction).stack =
        (⟨[.moveSpawnPoint 0 ⟨1, 1⟩ (some ⟨0, 0⟩), .moveSpawnPoint 0 ⟨2, 2⟩ (some ⟨1, 1⟩)], 2⟩ :
          EditorHistory MapAction).stack.take
          ((⟨[.moveSpawnPoint 0 ⟨1, 1⟩ (some ⟨0, 0⟩),
              .moveSpawnPoint 0 ⟨2, 2⟩ (some ⟨1, 1⟩)], 2⟩ :
            EditorHistory MapAction).stack.length - 1) ++ [a'] ∧
      (⟨[.moveSpawnPoint 0 ⟨1, 1⟩ (some ⟨0, 0⟩),
          .moveSpawnPoint 0 ⟨3, 3⟩ (some ⟨1, 1⟩)], 2⟩ :
        EditorHistory MapAction).cursor =
        (⟨[.moveSpawnPoint 0 ⟨1, 1⟩ (some ⟨0, 0⟩), .moveSpawnPoint 0 ⟨2, 2⟩ (some ⟨1, 1⟩)], 2⟩ :
          EditorHistory MapAction).stack.length - 1 + 1 := by
  refine ⟨rfl, by decide, ?_⟩
  have h := @history_fresh_action_discards_undone MapAction mapActionOps
    ⟨[.moveSpawnPoint 0 ⟨1, 1⟩ (some ⟨0, 0⟩), .moveSpawnPoint 0 ⟨2, 2⟩ (some ⟨1, 1⟩)], 2⟩
    { mapWith [] [] with spawn_points := [⟨2, 2⟩] } 1 rfl (by decide)
    ⟨[.moveSpawnPoint 0 ⟨1, 1⟩ (some ⟨0, 0⟩), .moveSpawnPoint 0 ⟨2, 2⟩ (some ⟨1, 1⟩)], 1⟩
    { mapWith [] [] with spawn_points := [⟨1, 1⟩] }
    (by rfl) (.moveSpawnPoint 0 ⟨3, 3⟩ none)
    ⟨[.moveSpawnPoint 0 ⟨1, 1⟩ (some ⟨0, 0⟩),
      .moveSpawnPoint 0 ⟨3, 3⟩ (some ⟨1, 1⟩)], 2⟩
    { mapWith [] [] with spawn_points := [⟨3, 3⟩] }
    (by rfl)
  exact h

/-! ### The draw-order/layer-key permutation invariant (C7) -/

/-- The map invariant of spec §3: `draw_order` is a permutation of the
keys of the layer mapping. -/
def MapInv (m : Map) : Prop :=
  m.draw_order.Perm (m.layers.map Prod.fst)

instance (m : Map) : Decidable (MapInv m) := by
  unfold MapInv; infer_instance

theorem alistRemove_map_fst {α : Type} (key : String) (l : List (String × α)) :
    (alistRemove key l).map Prod.fst = (l.map Prod.fst).erase key := by
  induction l with
  | nil => rfl
  | cons p rest ih =>
    obtain ⟨k, v⟩ := p
    by_cases hk : k = key
    · subst hk
      simp [alistRemove, List.erase_cons]
    · simp [alistRemove, hk, List.erase_cons, ih]

theorem alistSet_map_fst {α : Type} (key : String) (v : α) (l : List (String × α)) :
    (alistSet key v l).map Prod.fst = l.map Prod.fst := by
  induction l with
  | nil => rfl
  | cons p rest ih =>
    obtain ⟨k, w⟩ := p
    by_cases hk : k = key
    · subst hk; simp [alistSet]
    · simp [alistSet, hk, ih]

theorem map_insertIdx {α β : Type} (f : α → β) (a : α) :
    ∀ (n : Nat) (l : List α), (l.insertIdx n a).map f = (l.map f).insertIdx n (f a)
  | 0, l => by simp [List.insertIdx_zero]
  | n + 1, [] => by simp [List.insertIdx_succ_nil]
  | n + 1, x :: xs => by
    simp [List.insertIdx_succ_cons, map_insertIdx f a n xs]

theorem perm_insertIdx_min {α : Type} (a : α) (l : List α) (n : Nat) :
    (l.insertIdx (min n l.length) a).Perm (a :: l) :=
  List.perm_insertIdx a l (Nat.min_le_right n l.length)

/-- Every undoable action's `applyTo` preserves the permutation
invariant. -/
theorem MapAction.applyTo_inv {a : MapAction} {m : Map} {a' : MapAction} {m' : Map}
    (h : a.applyTo m = .ok (a', m')) (hinv : MapInv m) : MapInv m' := by
  cases a <;> simp only [MapAction.applyTo] at h
  case createLayer id kind has_collision index =>
    split at h
    · exact Except.noConfusion h
    · injection h with h
      have hm : m' = { m with
          layers := m.layers ++ [(id, _)]
          draw_order := m.draw_order.insertIdx (min index m.draw_order.length) id } :=
        (congrArg Prod.snd h).symm
      rw [hm]
      unfold MapInv at hinv ⊢
      simp only [List.map_append, List.map_cons, List.map_nil]
      exact (perm_insertIdx_min id m.draw_order index).trans
        ((hinv.cons id).trans (List.perm_append_singleton id _).symm)
  case deleteLayer id captured =>
    split at h
    · exact Except.noConfusion h
    · rename_i layer hlayer
      injection h with h
      have hm : m' = { m with
          layers := alistRemove id m.layers
          draw_order := m.draw_order.erase id } := (congrArg Prod.snd h).symm
      rw [hm]
      unfold MapInv at hinv ⊢
      show (m.draw_order.erase id).Perm ((alistRemove id m.layers).map Prod.fst)
      rw [alistRemove_map_fst]
      exact hinv.erase id
  case setLayerDrawOrderIndex id index old_index =>
    split at h
    · rename_i hc
      injection h with h
      have hm : m' = { m with
          draw_order := (m.draw_order.erase id).insertIdx
            (min index (m.draw_order.erase id).length) id } := (congrArg Prod.snd h).symm
      rw [hm]
      unfold MapInv at hinv ⊢
      exact (perm_insertIdx_min id _ index).trans
        ((List.perm_cons_erase (by simpa using hc)).symm.trans hinv)
    · exact Except.noConfusion h
  case updateObject layer_id index id kind position old =>
    split at h
    · exact Except.noConfusion h
    · rename_i layer hlayer
      split at h
      · exact Except.noConfusion h
      · injection h with h
        injection h with h1 h2
        rw [← h2]
        unfold MapInv at hinv ⊢
        show m.draw_order.Perm ((alistSet layer_id _ m.layers).map Prod.fst)
        rw [alistSet_map_fst]
        exact hinv
  case moveSpawnPoint index position old =>
    split at h
    · exact Except.noConfusion h
    · injection h with h
      injection h with h1 h2
      rw [← h2]
      exact hinv
  case deleteObject index layer_id old =>
    split at h
    · exact Except.noConfusion h
    · rename_i layer hlayer
      split at h
      · exact Except.noConfusion h
      · injection h with h
        injection h with h1 h2
        rw [← h2]
        unfold MapInv at hinv ⊢
        show m.draw_order.Perm ((alistSet layer_id _ m.layers).map Prod.fst)
        rw [alistSet_map_fst]
        exact hinv
  case removeTile layer_id coords old =>
    split at h
    · exact Except.noConfusion h
    · rename_i layer hlayer
      split at h
      · exact Except.noConfusion h
      · injection h with h
        injection h with h1 h2
        rw [← h2]
        unfold MapInv at hinv ⊢
        show m.draw_order.Perm ((alistSet layer_id _ m.layers).map Prod.fst)
        rw [alistSet_map_fst]
        exact hinv
  case deleteSpawnPoint index old =>
    split at h
    · exact Except.noConfusion h
    · injection h with h
      injection h with h1 h2
      rw [← h2]
      exact hinv

/-- Every undoable action's `undoOn` preserves the permutation
invariant. -/
theorem MapAction.undoOn_inv {a : MapAction} {m : Map} {m' : Map}
    (h : a.undoOn m = .ok m') (hinv : MapInv m) : MapInv m' := by
  cases a <;> simp only [MapAction.undoOn] at h
  case createLayer id kind has_collision index =>
    split at h
    · injection h with h
      rw [← h]
      unfold MapInv at hinv ⊢
      show (m.draw_order.erase id).Perm ((alistRemove id m.layers).map Prod.fst)
      rw [alistRemove_map_fst]
      exact hinv.erase id
    · exact Except.noConfusion h
  case deleteLayer id captured =>
    split at h
    · exact Except.noConfusion h
    · rename_i layer li di
      split at h
      · rename_i hb
        injection h with h
        rw [← h]
        unfold MapInv at hinv ⊢
        show (m.draw_order.insertIdx di id).Perm
          ((m.layers.insertIdx li (id, layer)).map Prod.fst)
        rw [map_insertIdx]
        exact (List.perm_insertIdx id _ hb.2).trans ((hinv.cons id).trans
          (List.perm_insertIdx id _ (by simpa using hb.1)).symm)
      · exact Except.noConfusion h
  case setLayerDrawOrderIndex id index old_index =>
    split at h
    · exact Except.noConfusion h
    · rename_i oi
      split at h
      · rename_i hc
        injection h with h
        rw [← h]
        unfold MapInv at hinv ⊢
        exact (perm_insertIdx_min id _ oi).trans
          ((List.perm_cons_erase (by simpa using hc)).symm.trans hinv)
      · exact Except.noConfusion h
  case updateObject layer_id index id kind position old =>
    split at h
    · exact Except.noConfusion h
    · split at h
      · exact Except.noConfusion h
      · rename_i layer hlayer
        injection h with h
        rw [← h]
        unfold MapInv at hinv ⊢
        show m.draw_order.Perm ((alistSet layer_id _ m.layers).map Prod.fst)
        rw [alistSet_map_fst]
        exact hinv
  case moveSpawnPoint index position old =>
    split at h
    · exact Except.noConfusion h
    · split at h
      · injection h with h
        rw [← h]
        exact hinv
      · exact Except.noConfusion h
  case deleteObject index layer_id old =>
    split at h
    · exact Except.noConfusion h
    · split at h
      · exact Except.noConfusion h
      · rename_i layer hlayer
        injection h with h
        rw [← h]
        unfold MapInv at hinv ⊢
        show m.draw_order.Perm ((alistSet layer_id _ m.layers).map Prod.fst)
        rw [alistSet_map_fst]
        exact hinv
  case removeTile layer_id coords old =>
    split at h
    · exact Except.noConfusion h
    · split at h
      · exact Except.noConfusion h
      · rename_i layer hlayer
        injection h with h
        rw [← h]
        unfold MapInv at hinv ⊢
        show m.draw_order.Perm ((alistSet layer_id _ m.layers).map Prod.fst)
        rw [alistSet_map_fst]
        exact hinv
  case deleteSpawnPoint index old =>
    split at h
    · exact Except.noConfusion h
    · injection h with h
      rw [← h]
      exact hinv

theorem selectTileset_map_resource (s : EditorState) (tileset_id : String)
    (tile_id : Option Nat) :
    (selectTileset s tileset_id tile_id).map_resource = s.map_resource := by
  unfold selectTileset; repeat' split
  all_goals rfl

/-- Routing an undoable action through the history preserves the
permutation invariant (also on failure, where nothing changes). -/
theorem routeHistory_inv (ma : MapAction) (s : EditorState) (hinv : MapInv s.map) :
    MapInv (routeHistory ma s).1.map := by
  unfold routeHistory
  split
  · exact hinv
  · rename_i h m hhm
    show MapInv m
    unfold EditorHistory.applyAct at hhm
    split at hhm
    · exact Except.noConfusion hhm
    · rename_i a' m' hap
      injection hhm with hhm
      injection hhm with h1 h2
      rw [← h2]
      exact MapAction.applyTo_inv hap hinv

/-- Every `apply_action` dispatch preserves the permutation invariant of
the map document. -/
theorem dispatch_mapInv (env : EditorEnv) (a : EditorAction) (s : EditorState)
    (hinv : MapInv s.map) : MapInv (dispatch env a s).1.map := by
  cases a <;> simp only [dispatch]
  case undo =>
    split
    · exact hinv
    · rename_i h m hu
      show MapInv m
      unfold EditorHistory.undoAct at hu
      split at hu
      · injection hu with hu
        injection hu with h1 h2
        rw [← h2]; exact hinv
      · split at hu
        · exact Except.noConfusion hu
        · rename_i a ha
          split at hu
          · exact Except.noConfusion hu
          · rename_i m' hm'
            injection hu with hu
            injection hu with h1 h2
            rw [← h2]
            exact MapAction.undoOn_inv hm' hinv
  case redo =>
    split
    · exact hinv
    · rename_i h m hu
      show MapInv m
      unfold EditorHistory.redoAct at hu
      split at hu
      · injection hu with hu
        injection hu with h1 h2
        rw [← h2]; exact hinv
      · split at hu
        · exact Except.noConfusion hu
        · rename_i a ha
          split at hu
          · exact Except.noConfusion hu
          · rename_i a' m' hm'
            injection hu with hu
            injection hu with h1 h2
            rw [← h2]
            exact MapAction.applyTo_inv hm' hinv
  case selectTool id => exact hinv
  case selectTile id tileset_id =>
    show MapInv (selectTileset s tileset_id (some id)).map
    have : (selectTileset s tileset_id (some id)).map = s.map :=
      congrArg MapResource.map (selectTileset_map_resource s tileset_id (some id))
    rw [this]; exact hinv
  case selectLayer id =>
    split <;> exact hinv
  case setLayerDrawOrderIndex id index => exact routeHistory_inv _ s hinv
  case createLayer id kind has_collision index => exact routeHistory_inv _ s hinv
  case deleteLayer id => exact routeHistory_inv _ s hinv
  case selectTileset id =>
    show MapInv (selectTileset s id none).map
    have : (selectTileset s id none).map = s.map :=
      congrArg MapResource.map (selectTileset_map_resource s id none)
    rw [this]; exact hinv
  case selectObject index layer_id => exact hinv
  case updateObject layer_id index id kind position => exact routeHistory_inv _ s hinv
  case moveSpawnPoint index position => exact routeHistory_inv _ s hinv
  case deleteObject index layer_id => exact routeHistory_inv _ s hinv
  case removeTile layer_id coords => exact routeHistory_inv _ s hinv
  case deleteSpawnPoint index => exact routeHistory_inv _ s hinv
  case saveMap name =>
    split
    · show MapInv (savedResource env name s.map_resource).map
      have : (savedResource env name s.map_resource).map = s.map := by
        unfold savedResource; cases name <;> rfl
      rw [this]; exact hinv
    · exact hinv
  case openSaveMapWindow => exact hinv
  case openLoadMapWindow => exact hinv
  case openObjectPropertiesWindow layer_id index => exact hinv
  case openTilePropertiesWindow layer_id index => exact hinv

/-- A successful `apply_action` preserves the permutation invariant. -/
theorem applyAction_mapInv {env : EditorEnv} {a : EditorAction} {s s' : EditorState}
    (h : applyAction env a s = some s') (hinv : MapInv s.map) : MapInv s'.map := by
  unfold applyAction at h
  split at h
  · exact Option.noConfusion h
  · rename_i sd hres
    have h1 : MapInv sd.map := by
      have := dispatch_mapInv env a s hinv
      rw [hres] at this
      exact this
    have h2 : s'.map = sd.map := by
      show s'.map_resource.map = sd.map_resource.map
      rw [updateContext_map_resource h]
    rw [h2]; exact h1

/-- A list of editor actions dispatched in order (`none` embeds a panic
anywhere along the way). -/
def applyActions (env : EditorEnv) : List EditorAction → EditorState → Option EditorState
  | [], s => some s
  | a :: rest, s =>
    match applyAction env a s with
    | none => none
    | some s' => applyActions env rest s'

/-- The layer-structure actions of claim C7, together with Undo/Redo. -/
def isLayerStructureAction : EditorAction → Prop
  | .createLayer _ _ _ _ => True
  | .deleteLayer _ => True
  | .setLayerDrawOrderIndex _ _ => True
  | .undo => True
  | .redo => True
  | _ => False

/-- C7: after any sequence of CreateLayer, DeleteLayer and
SetLayerDrawOrderIndex dispatches, including their undos and redos,
`draw_order` remains exactly a permutation of the layer mapping's keys. -/
theorem draw_order_perm_layer_keys (env : EditorEnv) (acts : List EditorAction) :
    ∀ (s s' : EditorState), (∀ a ∈ acts, isLayerStructureAction a) →
      MapInv s.map → applyActions env acts s = some s' → MapInv s'.map := by
  induction acts with
  | nil =>
    intro s s' _ hinv h
    unfold applyActions at h
    injection h with h
    rw [← h]; exact hinv
  | cons a rest ih =>
    intro s s' hall hinv h
    unfold applyActions at h
    split at h
    · exact Option.noConfusion h
    · rename_i s₁ h₁
      exact ih s₁ s' (fun b hb => hall b (List.mem_cons_of_mem a hb))
        (applyAction_mapInv h₁ hinv) h

/-- Witness for C7: create two layers, reorder, delete one, undo and redo
the deletion — the invariant holds at the end. -/
theorem draw_order_perm_layer_keys_witness :
    (∀ a ∈ ([.createLayer "a" .tileLayer false 0, .createLayer "b" .objectLayer false 0,
        .setLayerDrawOrderIndex "a" 1, .deleteLayer "b", .undo, .redo] :
        List EditorAction), isLayerStructureAction a) ∧
    MapInv (baseState (mapWith [] [])).map ∧
    ∃ s', applyActions env0
        [.createLayer "a" .tileLayer false 0, .createLayer "b" .objectLayer false 0,
          .setLayerDrawOrderIndex "a" 1, .deleteLayer "b", .undo, .redo]
        (baseState (mapWith [] [])) = some s' ∧ MapInv s'.map := by
  have hall : ∀ a ∈ ([.createLayer "a" .tileLayer false 0,
      .createLayer "b" .objectLayer false 0, .setLayerDrawOrderIndex "a" 1,
      .deleteLayer "b", .undo, .redo] : List EditorAction), isLayerStructureAction a := by
    intro a ha
    fin_cases ha <;> trivial
  have hinv : MapInv (baseState (mapWith [] [])).map := by decide
  have hsome : (applyActions env0
      [.createLayer "a" .tileLayer false 0, .createLayer "b" .objectLayer false 0,
        .setLayerDrawOrderIndex "a" 1, .deleteLayer "b", .undo, .redo]
      (baseState (mapWith [] []))).isSome = true := by decide
  obtain ⟨s', hs'⟩ := Option.isSome_iff_exists.mp hsome
  exact ⟨hall, hinv, s', hs',
    draw_order_perm_layer_keys env0 _ _ s' hall hinv hs'⟩

/-! ### Undo/redo round trip (C1) -/

/-- A sequence of actions applied through the history in order. -/
def applyN {A : Type} (ops : ActionOps A) :
    List A → EditorHistory A → Map → Except String (EditorHistory A × Map)
  | [], h, m => .ok (h, m)
  | a :: rest, h, m =>
    match EditorHistory.applyAct ops a h m with
    | .error e => .error e
    | .ok (h', m') => applyN ops rest h' m'

/-- `redo` iterated `k` times through the history. -/
def redoN {A : Type} (ops : ActionOps A) :
    Nat → EditorHistory A → Map → Except String (EditorHistory A × Map)
  | 0, h, m => .ok (h, m)
  | k + 1, h, m =>
    match EditorHistory.redoAct ops h m with
    | .error e => .error e
    | .ok (h', m') => redoN ops k h' m'

/-- Applying the actions directly to the map, without any history. -/
def directApply {A : Type} (ops : ActionOps A) : List A → Map → Except String Map
  | [], m => .ok m
  | a :: rest, m =>
    match ops.applyTo a m with
    | .error e => .error e
    | .ok (_, m') => directApply ops rest m'

/-- The §4.1 contract for a sequence of valid undoable actions applied
from map `m`: each action applies successfully, its captured form undoes
back to the exact pre-state, and re-applying the captured form reproduces
the exact post-state (actions are pure functions of their captured
parameters). -/
inductive GoodRun {A : Type} (ops : ActionOps A) : List A → Map → Map → Prop where
  | nil (m : Map) : GoodRun ops [] m m
  | cons {a a' : A} {m m₁ m' : Map} {as : List A}
      (hap : ops.applyTo a m = .ok (a', m₁))
      (hundo : ops.undoOn a' m₁ = .ok m)
      (hre : ops.applyTo a' m = .ok (a', m₁))
      (htail : GoodRun ops as m₁ m') : GoodRun ops (a :: as) m m'

theorem list_set_same {α : Type} : ∀ (l : List α) (n : Nat) (a : α),
    l.get? n = some a → l.set n a = l := by
  intro l
  induction l with
  | nil => intro n a h; simp at h
  | cons x xs ih =>
    intro n a h
    cases n with
    | zero => simp_all
    | succ k =>
      simp only [List.get?] at h
      simp [List.set, ih k a h]

/-- Undoing one more step peels the innermost (earliest-remaining) entry
last. -/
theorem undoN_succ_right {A : Type} (ops : ActionOps A) (k : Nat) :
    ∀ (h : EditorHistory A) (m : Map),
      undoN ops (k + 1) h m =
        match undoN ops k h m with
        | .error e => .error e
        | .ok (h', m') => EditorHistory.undoAct ops h' m' := by
  induction k with
  | zero =>
    intro h m
    show undoN ops 1 h m = _
    unfold undoN
    split
    · rename_i e he
      exact he.symm
    · rename_i h' m' hu
      exact hu.symm
  | succ k ih =>
    intro h m
    show undoN ops (k + 1 + 1) h m = _
    conv_lhs => unfold undoN
    conv_rhs => unfold undoN
    split
    · rfl
    · rename_i h' m' hu
      exact ih h' m'

/-- Main round-trip engine: a valid sequence applied through the history
from any cursor position at or below the top can be fully undone (back to
the exact starting map) and fully redone (back to the exact final map and
history). -/
theorem goodRun_undo_redo {A : Type} (ops : ActionOps A) {as : List A} {m m' : Map}
    (hrun : GoodRun ops as m m') :
    ∀ h₀ : EditorHistory A, h₀.cursor ≤ h₀.stack.length →
    ∃ h₁ : EditorHistory A,
      applyN ops as h₀ m = .ok (h₁, m') ∧
      h₁.cursor = h₀.cursor + as.length ∧
      h₁.stack.take h₀.cursor = h₀.stack.take h₀.cursor ∧
      undoN ops as.length h₁ m' = .ok (⟨h₁.stack, h₀.cursor⟩, m) ∧
      redoN ops as.length ⟨h₁.stack, h₀.cursor⟩ m = .ok (h₁, m') := by
  induction hrun with
  | nil m =>
    intro h₀ _
    exact ⟨h₀, rfl, rfl, rfl, rfl, rfl⟩
  | cons hap hundo hre htail ih =>
    rename_i a a' m m₁ m' as
    intro h₀ hc₀
    set c := h₀.cursor with hcdef
    have hlen_take : (h₀.stack.take c).length = c := by
      simp [List.length_take, Nat.min_eq_left hc₀]
    set h₁' : EditorHistory A := ⟨h₀.stack.take c ++ [a'], c + 1⟩ with hh₁'
    have hc₁' : h₁'.cursor ≤ h₁'.stack.length := by
      simp [hh₁', hlen_take]
    obtain ⟨h₁, ha, hcur, htake, hu, hr⟩ := ih h₁' hc₁'
    have htake' : h₁.stack.take (c + 1) = h₀.stack.take c ++ [a'] := by
      rw [htake, hh₁']
      exact List.take_of_length_le (by simp [hlen_take])
    have hF1 : h₁.stack.get? c = some a' := by
      have h1 : (h₁.stack.take (c + 1)).get? c = h₁.stack.get? c :=
        List.get?_take (Nat.lt_succ_self c)
      rw [← h1, htake']
      rw [List.get?_append_right (by rw [hlen_take])]
      rw [hlen_take]
      simp
    have hF2 : h₁.stack.take c = h₀.stack.take c := by
      have h1 : h₁.stack.take c = (h₁.stack.take (c + 1)).take c := by
        rw [List.take_take, Nat.min_eq_left (Nat.le_succ c)]
      rw [h1, htake', List.take_append_eq_append_take, hlen_take]
      simp [List.take_take]
    have hF3 : c + 1 ≤ h₁.stack.length := by
      have := congrArg List.length htake'
      simp only [List.length_take, List.length_append, hlen_take, List.length_cons,
        List.length_nil] at this
      omega
    refine ⟨h₁, ?_, ?_, hF2, ?_, ?_⟩
    · -- apply
      unfold applyN
      unfold EditorHistory.applyAct
      rw [hap]
      exact ha
    · -- cursor arithmetic
      rw [hcur]
      have hc1 : h₁'.cursor = c + 1 := by rw [hh₁']
      rw [hc1]
      simp only [List.length_cons]
      omega
    · -- undo: the tail first, then the head entry
      show undoN ops (as.length + 1) h₁ m' = _
      rw [undoN_succ_right, hu]
      show EditorHistory.undoAct ops ⟨h₁.stack, c + 1⟩ m₁ = _
      unfold EditorHistory.undoAct
      rw [if_neg (Nat.succ_ne_zero c)]
      simp only [Nat.add_sub_cancel, hF1, hundo]
    · -- redo: the head entry first, then the tail
      show redoN ops (as.length + 1) ⟨h₁.stack, c⟩ m = _
      unfold redoN
      unfold EditorHistory.redoAct
      rw [if_neg (show ¬ c = h₁.stack.length by intro heq; omega)]
      simp only [hF1, hre, list_set_same h₁.stack c a' hF1]
      exact hr

/-- A valid run's direct application reproduces its final map. -/
theorem goodRun_directApply {A : Type} (ops : ActionOps A) {as : List A} {m m' : Map}
    (hrun : GoodRun ops as m m') : directApply ops as m = .ok m' := by
  induction hrun with
  | nil m => rfl
  | cons hap hundo hre htail ih =>
    unfold directApply
    rw [hap]
    exact ih

/-- C1: for every sequence of valid undoable actions applied through the
editor's history (the `history.apply` the map-mutation dispatch arms
call), undoing `n` times and then redoing `n` times reproduces a map
structurally equal to the one obtained by applying the actions directly —
and the history itself is restored. -/
theorem undo_redo_roundtrip {A : Type} (ops : ActionOps A) (as : List A) (m m' : Map)
    (hrun : GoodRun ops as m m') (h₀ : EditorHistory A)
    (hc : h₀.cursor ≤ h₀.stack.length) :
    directApply ops as m = .ok m' ∧
    ∃ h₁, applyN ops as h₀ m = .ok (h₁, m') ∧
      ∃ h₂ m₂, undoN ops as.length h₁ m' = .ok (h₂, m₂) ∧ m₂ = m ∧
        redoN ops as.length h₂ m₂ = .ok (h₁, m') := by
  obtain ⟨h₁, ha, _, _, hu, hr⟩ := goodRun_undo_redo ops hrun h₀ hc
  exact ⟨goodRun_directApply ops hrun, h₁, ha, ⟨h₁.stack, h₀.cursor⟩, m, hu, rfl, hr⟩

/-- Witness for C1: two spawn-point moves through a fresh history. -/
theorem undo_redo_roundtrip_witness :
    GoodRun mapActionOps
      [.moveSpawnPoint 0 ⟨1, 1⟩ none, .moveSpawnPoint 0 ⟨2, 2⟩ none]
      { mapWith [] [] with spawn_points := [⟨0, 0⟩] }
      { mapWith [] [] with spawn_points := [⟨2, 2⟩] } ∧
    (EditorHistory.new : EditorHistory MapAction).cursor ≤
      (EditorHistory.new : EditorHistory MapAction).stack.length ∧
    (directApply mapActionOps
        [.moveSpawnPoint 0 ⟨1, 1⟩ none, .moveSpawnPoint 0 ⟨2, 2⟩ none]
        { mapWith [] [] with spawn_points := [⟨0, 0⟩] } =
        .ok { mapWith [] [] with spawn_points := [⟨2, 2⟩] } ∧
      ∃ h₁, applyN mapActionOps
          [.moveSpawnPoint 0 ⟨1, 1⟩ none, .moveSpawnPoint 0 ⟨2, 2⟩ none]
          EditorHistory.new { mapWith [] [] with spawn_points := [⟨0, 0⟩] } =
          .ok (h₁, { mapWith [] [] with spawn_points := [⟨2, 2⟩] }) ∧
        ∃ h₂ m₂, undoN mapActionOps 2 h₁
            { mapWith [] [] with spawn_points := [⟨2, 2⟩] } = .ok (h₂, m₂) ∧
          m₂ = { mapWith [] [] with spawn_points := [⟨0, 0⟩] } ∧
          redoN mapActionOps 2 h₂ m₂ =
            .ok (h₁, { mapWith [] [] with spawn_points := [⟨2, 2⟩] })) := by
  have hrun : GoodRun mapActionOps
      [.moveSpawnPoint 0 ⟨1, 1⟩ none, .moveSpawnPoint 0 ⟨2, 2⟩ none]
      { mapWith [] [] with spawn_points := [⟨0, 0⟩] }
      { mapWith [] [] with spawn_points := [⟨2, 2⟩] } := by
    refine @GoodRun.cons MapAction mapActionOps _
      (.moveSpawnPoint 0 ⟨1, 1⟩ (some ⟨0, 0⟩)) _
      { mapWith [] [] with spawn_points := [⟨1, 1⟩] } _ _
      (by rfl) (by rfl) (by rfl) ?_
    refine @GoodRun.cons MapAction mapActionOps _
      (.moveSpawnPoint 0 ⟨2, 2⟩ (some ⟨1, 1⟩)) _
      { mapWith [] [] with spawn_points := [⟨2, 2⟩] } _ _
      (by rfl) (by rfl) (by rfl) ?_
    exact GoodRun.nil _
  exact ⟨hrun, by decide,
    undo_redo_roundtrip mapActionOps _ _ _ hrun EditorHistory.new (by decide)⟩

/-! ### The per-frame update (`Editor::update`, lines 651-1123)

External per-frame collaborators (mouse, frame time, camera node, GUI,
tool registry) are supplied through a `FrameEnv`.  GUI calls
(`toggle_editor_menu`, `close_context_menu`, `open_context_menu`) only
mutate the external GUI and leave the editor state unchanged.  The model
returns the new editor state paired with the list of actions passed to
`apply_action` during the frame, `none` embedding a panic. -/

def SPAWN_POINT_COLLIDER_WIDTH : ℚ := 38

def SPAWN_POINT_COLLIDER_HEIGHT : ℚ := 49

def DOUBLE_CLICK_THRESHOLD : ℚ := 1/4

def MESSAGE_TIMEOUT : ℚ := 5/2

/-- `get_object_size`: the commented-out lookups leave `res = None`, so
every object gets the default selection rect plus twice the padding. -/
def get_object_size (_object : MapObject) : Size ℚ :=
  ⟨75 + 8 * 2, 75 + 8 * 2⟩

/-- The external queries `Editor::update` makes during one frame. -/
structure FrameEnv where
  mouse_position : Vec2
  frame_time : ℚ
  input : EditorInput
  camera : EditorCamera
  window_size : Size ℚ
  gui_contains : Vec2 → Bool
  gui_context_menu_contains : Vec2 → Bool
  tool_update : ToolId → Map → EditorContext → Option EditorAction
  tool_get_action : ToolId → Map → EditorContext → Option EditorAction
  tool_is_continuous : ToolId → Bool
  editor : EditorEnv

/-- Dispatch one action inside the frame, recording it. -/
def applyA (env : EditorEnv) (a : EditorAction) :
    EditorState × List EditorAction → Option (EditorState × List EditorAction)
  | (s, acts) =>
    match applyAction env a s with
    | none => none
    | some s' => some (s', acts ++ [a])

/-- The screen-space selection rectangle of an object (lines 803-808). -/
def objectScreenRect (fe : FrameEnv) (object : MapObject) : Rect :=
  let position := fe.camera.to_screen_space fe.window_size object.position
  let size := get_object_size object
  ⟨position.x, position.y, size.width, size.height⟩

/-- The screen-space collider rectangle of a spawn point
(lines 824-833). -/
def spawnScreenRect (fe : FrameEnv) (spawn_point : Vec2) : Rect :=
  let position := fe.camera.to_screen_space fe.window_size spawn_point
  ⟨position.x, position.y, SPAWN_POINT_COLLIDER_WIDTH, SPAWN_POINT_COLLIDER_HEIGHT⟩

/-- First object of the layer (front to back) whose selection rect
contains the world-space cursor (lines 887-899). -/
def firstObjectHit (world_offset cursor_world : Vec2) :
    List MapObject → Nat → Option Nat
  | [], _ => none
  | object :: rest, i =>
    let size := get_object_size object
    let position := object.position.add world_offset
    let rect : Rect := ⟨position.x, position.y, size.width, size.height⟩
    if rect.containsPt cursor_world then some i
    else firstObjectHit world_offset cursor_world rest (i + 1)

/-- Scan the prioritized layer ids for an object hit (lines 884-902);
`none` embeds the panic of the unwrapped layer lookup. -/
def findObjectHit (m : Map) (cursor_world : Vec2) :
    List String → Option (Option (Nat × String))
  | [] => some none
  | id :: rest =>
    match m.getLayer id with
    | none => none
    | some layer =>
      if layer.kind = .objectLayer then
        match firstObjectHit m.world_offset cursor_world layer.objects 0 with
        | some i => some (some (i, id))
        | none => findObjectHit m cursor_world rest
      else findObjectHit m cursor_world rest

/-- First spawn point whose screen-space collider contains the screen
cursor (lines 936-966). -/
def firstSpawnHit (fe : FrameEnv) (cursor : Vec2) : List Vec2 → Nat → Option Nat
  | [], _ => none
  | sp :: rest, i =>
    let position := fe.camera.to_screen_space fe.window_size sp
    let rect : Rect := ⟨position.x, position.y,
      SPAWN_POINT_COLLIDER_WIDTH, SPAWN_POINT_COLLIDER_HEIGHT⟩
    if rect.containsPt cursor then some i
    else firstSpawnHit fe cursor rest (i + 1)

/-- Scan a tile layer's grid in row-major order for a nonempty tile whose
cell contains the world cursor (lines 977-993), returning `to_index` of
its coordinates. -/
def firstTileHitAux (m : Map) (layer : MapLayer) (cursor_world : Vec2) :
    List Nat → Option Nat
  | [] => none
  | i :: rest =>
    let x := i % m.grid_size.width
    let y := i / m.grid_size.width
    match layer.tiles.getD i none with
    | some _ =>
      let rect : Rect := ⟨m.world_offset.x + x * m.tile_size.width,
        m.world_offset.y + y * m.tile_size.height,
        m.tile_size.width, m.tile_size.height⟩
      if rect.containsPt cursor_world then some (m.to_index (x, y))
      else firstTileHitAux m layer cursor_world rest
    | none => firstTileHitAux m layer cursor_world rest

def firstTileHit (m : Map) (layer : MapLayer) (cursor_world : Vec2) : Option Nat :=
  firstTileHitAux m layer cursor_world
    (List.range (m.grid_size.width * m.grid_size.height))

/-- Scan the prioritized layer ids for a tile hit (lines 971-995). -/
def findTileHit (m : Map) (cursor_world : Vec2) :
    List String → Option (Option (Nat × String))
  | [] => some none
  | id :: rest =>
    match m.getLayer id with
    | none => none
    | some layer =>
      if layer.kind = .tileLayer then
        match firstTileHit m layer cursor_world with
        | some i => some (some (i, id))
        | none => findTileHit m cursor_world rest
      else findTileHit m cursor_world rest

/-- The begin-drag branch (lines 794-844): button held two frames, cursor
unmoved, no drag in progress — grab the selected object or spawn point
under the cursor. -/
def beginDragStep (fe : FrameEnv) (sa : EditorState × List EditorAction) :
    Option (EditorState × List EditorAction) :=
  let s := sa.1
  if s.cursor_position = s.previous_cursor_position ∧ s.dragged_object = none then
    match s.selected_object with
    | some index =>
      match s.selected_layer with
      | none => none
      | some layer_id =>
        match s.map.getLayer layer_id with
        | none => none
        | some layer =>
          match layer.objects.get? index with
          | none => none
          | some object =>
            if (objectScreenRect fe object).containsPt s.cursor_position then
              some ({ s with
                        dragged_object := some (.mapObject object.id object.kind
                          index layer_id (s.cursor_position.sub
                            (fe.camera.to_screen_space fe.window_size object.position))) },
                sa.2)
            else some sa
    | none =>
      match s.selected_spawn_point with
      | some index =>
        match s.map.spawn_points.get? index with
        | none => none
        | some spawn_point =>
          if (spawnScreenRect fe spawn_point).containsPt s.cursor_position then
            some ({ s with
                      dragged_object := some (.spawnPoint index
                        (s.cursor_position.sub
                          (fe.camera.to_screen_space fe.window_size spawn_point))) }, sa.2)
          else some sa
      | none => some sa
  else some sa

/-- The selection/hit-test branch on a fresh press with no tool
(lines 845-1036). -/
def hitTestStep (fe : FrameEnv) (cursor_world : Vec2)
    (sa : EditorState × List EditorAction) :
    Option (EditorState × List EditorAction) :=
  let s := sa.1
  let pair :=
    if s.double_click_timer < DOUBLE_CLICK_THRESHOLD then
      (true, { s with double_click_timer := DOUBLE_CLICK_THRESHOLD })
    else (false, { s with double_click_timer := 0 })
  let is_double_click := pair.1
  let s := pair.2
  let layer_ids := s.map.layers.map Prod.fst
  let layer_ids :=
    match s.selected_layer with
    | some sel => if sel ∈ layer_ids then sel :: layer_ids.erase sel else layer_ids
    | none => layer_ids
  match findObjectHit s.map cursor_world layer_ids with
  | none => none
  | some (some (i, layer_id)) =>
    -- object found under the cursor
    (match s.selected_object with
     | some current =>
       if current = i then
         -- deselect or open properties; then the trailing clear runs
         (match (if is_double_click then
             applyA fe.editor (.openObjectPropertiesWindow layer_id i) (s, sa.2)
           else some ({ s with selected_object := none }, sa.2)) with
          | none => none
          | some (s', acts') =>
            some ({ s' with
                      selected_map_tile_index := none
                      selected_object := none
                      selected_spawn_point := none }, acts'))
       else applyA fe.editor (.selectObject i layer_id) (s, sa.2)
     | none => applyA fe.editor (.selectObject i layer_id) (s, sa.2))
  | some none =>
    match firstSpawnHit fe s.cursor_position s.map.spawn_points 0 with
    | some i =>
      -- spawn point found: toggle its selection, no trailing clear
      (match s.selected_spawn_point with
       | some idx =>
         if idx = i then some ({ s with selected_spawn_point := none }, sa.2)
         else some ({ s with selected_spawn_point := some i }, sa.2)
       | none => some ({ s with selected_spawn_point := some i }, sa.2))
    | none =>
      match findTileHit s.map cursor_world layer_ids with
      | none => none
      | some (some (tidx, layer_id)) =>
        (match s.selected_map_tile_index with
         | some sel =>
           if sel = tidx then
             match s.selected_layer with
             | none => none
             | some sl =>
               if layer_id = sl then
                 (match (if is_double_click then
                     applyA fe.editor (.openTilePropertiesWindow layer_id tidx) (s, sa.2)
                   else some ({ s with selected_map_tile_index := none }, sa.2)) with
                  | none => none
                  | some (s', acts') =>
                    some ({ s' with
                              selected_map_tile_index := none
                              selected_object := none
                              selected_spawn_point := none }, acts'))
               else
                 some ({ s with
                           selected_map_tile_index := some tidx
                           selected_layer := some layer_id }, sa.2)
           else
             some ({ s with
                       selected_map_tile_index := some tidx
                       selected_layer := some layer_id }, sa.2)
         | none =>
           some ({ s with
                     selected_map_tile_index := some tidx
                     selected_layer := some layer_id }, sa.2))
      | some none =>
        -- nothing under the cursor: clear all selections
        some ({ s with
                  selected_map_tile_index := none
                  selected_object := none
                  selected_spawn_point := none }, sa.2)

/-- The drop position of a drag commit: the world-space cursor clamped to
the map bounds and optionally snapped to the grid (lines 1041-1054). -/
def dropPosition (fe : FrameEnv) (s : EditorState) : Vec2 :=
  let cursor_world := fe.camera.to_world_space fe.window_size s.cursor_position
  let position := cursor_world.clampV s.map.world_offset
    (s.map.world_offset.add
      ⟨s.map.grid_size.width * s.map.tile_size.width,
       s.map.grid_size.height * s.map.tile_size.height⟩)
  if s.should_snap_to_grid then s.map.to_position (s.map.to_coords position)
  else position

/-- The drag-commit branch on button release (lines 1038-1087): take the
drag state, dispatch a single UpdateObject or MoveSpawnPoint at the drop
position. -/
def releaseDragStep (fe : FrameEnv) (sa : EditorState × List EditorAction) :
    Option (EditorState × List EditorAction) :=
  let s := sa.1
  match s.dragged_object with
  | none => some sa
  | some d =>
    let s := { s with dragged_object := none }
    match d with
    | .mapObject id kind index layer_id click_offset =>
      applyA fe.editor
        (.updateObject layer_id index id kind
          ((dropPosition fe s).sub click_offset)) (s, sa.2)
    | .spawnPoint index click_offset =>
      applyA fe.editor
        (.moveSpawnPoint index ((dropPosition fe s).sub click_offset)) (s, sa.2)

/-- The delete branch (lines 1089-1113). -/
def deleteStep (fe : FrameEnv) (sa : EditorState × List EditorAction) :
    Option (EditorState × List EditorAction) :=
  let s := sa.1
  match s.selected_object with
  | some index =>
    let s := { s with selected_object := none }
    (match s.selected_layer with
     | none => none
     | some layer_id => applyA fe.editor (.deleteObject index layer_id) (s, sa.2))
  | none =>
    match s.selected_map_tile_index with
    | some index =>
      let s := { s with selected_map_tile_index := none }
      (match s.selected_layer with
       | none => none
       | some layer_id =>
         let coords := (index % s.map.grid_size.width, index / s.map.grid_size.width)
         applyA fe.editor (.removeTile layer_id coords) (s, sa.2))
    | none =>
      match s.selected_spawn_point with
      | some index =>
        applyA fe.editor (.deleteSpawnPoint index)
          ({ s with selected_spawn_point := none }, sa.2)
      | none => some sa

/-- The cursor/input/mouse-movement/info-timer bookkeeping at the top of
`Editor::update` (lines 654-674). -/
def frameBookkeeping (fe : FrameEnv) (s : EditorState) : EditorState :=
  let s := { s with
    previous_cursor_position := s.cursor_position
    cursor_position := fe.mouse_position }
  let dt := fe.frame_time
  let s := { s with previous_input := s.input, input := fe.input }
  let s := { s with
    mouse_movement := s.mouse_movement.add
      (s.cursor_position.sub s.previous_cursor_position) }
  if s.info_message.isSome then
    let t := s.info_message_timer + dt
    if MESSAGE_TIMEOUT ≤ t then { s with info_message := none, info_message_timer := 0 }
    else { s with info_message_timer := t }
  else s

set_option maxHeartbeats 1000000 in
/-- The dispatching part of `Editor::update` (lines 676-1122), applied to
the state after the bookkeeping. -/
def frameDispatch (fe : FrameEnv) (s : EditorState) :
    Option (EditorState × List EditorAction) := do
  let dt := fe.frame_time
  let sa ←
    if s.input.save then
      applyA fe.editor
        (if s.map_resource.meta.is_user_map then .saveMap none else .openSaveMapWindow)
        (s, [])
    else some (s, [])
  let sa ← if sa.1.input.save_as then applyA fe.editor .openSaveMapWindow sa else some sa
  let sa ← if sa.1.input.load then applyA fe.editor .openLoadMapWindow sa else some sa
  let sa :=
    (let s := sa.1
     if s.input.action = false ∧ s.double_click_timer < DOUBLE_CLICK_THRESHOLD then
       ({ s with
            double_click_timer :=
              min (max (s.double_click_timer + dt) 0) DOUBLE_CLICK_THRESHOLD }, sa.2)
     else sa)
  -- toggle_menu only touches the external GUI
  let sa :=
    (let s := sa.1
     if s.input.toggle_draw_grid then
       ({ s with
            should_draw_grid := !s.should_draw_grid
            info_message :=
              some (if !s.should_draw_grid then "Draw grid: ON" else "Draw grid: OFF") },
         sa.2)
     else sa)
  let sa :=
    (let s := sa.1
     if s.input.toggle_snap_to_grid then
       ({ s with
            should_snap_to_grid := !s.should_snap_to_grid
            info_message :=
              some (if !s.should_snap_to_grid then "Snap to grid: ON"
                else "Snap to grid: OFF") }, sa.2)
     else sa)
  let sa :=
    (let s := sa.1
     if s.input.toggle_disable_parallax then
       ({ s with
            is_parallax_disabled := !s.is_parallax_disabled
            info_message :=
              some (if !s.is_parallax_disabled then "Parallax: OFF"
                else "Parallax: ON") }, sa.2)
     else sa)
  let sa ←
    if sa.1.input.undo then applyA fe.editor .undo sa
    else if sa.1.input.redo then applyA fe.editor .redo sa
    else some sa
  let cursor_world := fe.camera.to_world_space fe.window_size sa.1.cursor_position
  let is_over_gui := fe.gui_contains sa.1.cursor_position
  let _is_over_ctx_menu := is_over_gui && fe.gui_context_menu_contains sa.1.cursor_position
  let sa ←
    (match sa.1.selected_tool with
     | some tid =>
       (match fe.tool_update tid sa.1.map sa.1.get_context with
        | some act => applyA fe.editor act sa
        | none => some sa)
     | none => some sa)
  let sa ←
    if sa.1.input.action then
      -- (close_context_menu: external GUI only)
      if is_over_gui = false then
        match sa.1.selected_tool with
        | some tid =>
          if sa.1.previous_input.action = false || fe.tool_is_continuous tid then
            match fe.tool_get_action tid sa.1.map sa.1.get_context with
            | some act => applyA fe.editor act sa
            | none => some sa
          else some sa
        | none =>
          if sa.1.previous_input.action then beginDragStep fe sa
          else hitTestStep fe cursor_world sa
      else some sa
    else releaseDragStep fe sa
  let sa ← if sa.1.input.delete then deleteStep fe sa else some sa
  -- (open_context_menu: external GUI only)
  some sa

/-- `Editor::update`, one frame: context repair, bookkeeping, then all the
dispatching branches.  Returns the new state and the actions dispatched
this frame; `none` embeds a panic. -/
def editorUpdate (fe : FrameEnv) (s0 : EditorState) :
    Option (EditorState × List EditorAction) := do
  let s ← updateContext fe.editor s0
  frameDispatch fe (frameBookkeeping fe s)

/-- A sequence of frames, concatenating the dispatched actions. -/
def runFrames : List FrameEnv → EditorState → Option (EditorState × List EditorAction)
  | [], s => some (s, [])
  | f :: rest, s =>
    match editorUpdate f s with
    | none => none
    | some (s', acts) =>
      match runFrames rest s' with
      | none => none
      | some (s'', acts') => some (s'', acts ++ acts')

/-! ### Frame-field preservation through the repair pass -/

theorem updateContextKind_frame {s s' : EditorState} (h : updateContextKind s = some s') :
    s'.dragged_object = s.dragged_object ∧ s'.history = s.history ∧
    s'.input = s.input ∧ s'.previous_input = s.previous_input ∧
    s'.cursor_position = s.cursor_position ∧
    s'.previous_cursor_position = s.previous_cursor_position ∧
    s'.selected_tool = s.selected_tool ∧
    s'.info_message = s.info_message ∧
    s'.double_click_timer = s.double_click_timer := by
  unfold updateContextKind at h
  repeat' split at h
  all_goals injection h
  all_goals (rename_i h; subst h; exact ⟨rfl, rfl, rfl, rfl, rfl, rfl, rfl, rfl, rfl⟩)

theorem updateContextTileset_frame (s : EditorState) :
    (updateContextTileset s).dragged_object = s.dragged_object ∧
    (updateContextTileset s).history = s.history ∧
    (updateContextTileset s).input = s.input ∧
    (updateContextTileset s).previous_input = s.previous_input ∧
    (updateContextTileset s).cursor_position = s.cursor_position ∧
    (updateContextTileset s).previous_cursor_position = s.previous_cursor_position ∧
    (updateContextTileset s).selected_tool = s.selected_tool ∧
    (updateContextTileset s).info_message = s.info_message ∧
    (updateContextTileset s).double_click_timer = s.double_click_timer := by
  unfold updateContextTileset; repeat' split
  all_goals exact ⟨rfl, rfl, rfl, rfl, rfl, rfl, rfl, rfl, rfl⟩

theorem updateContextTool_frame (env : EditorEnv) (s : EditorState) :
    (updateContextTool env s).dragged_object = s.dragged_object ∧
    (updateContextTool env s).history = s.history ∧
    (updateContextTool env s).input = s.input ∧
    (updateContextTool env s).previous_input = s.previous_input ∧
    (updateContextTool env s).cursor_position = s.cursor_position ∧
    (updateContextTool env s).previous_cursor_position = s.previous_cursor_position ∧
    (updateContextTool env s).info_message = s.info_message ∧
    (updateContextTool env s).double_click_timer = s.double_click_timer := by
  rcases updateContextTool_cases env s with h | h <;> rw [h] <;>
    exact ⟨rfl, rfl, rfl, rfl, rfl, rfl, rfl, rfl⟩

theorem updateContextLayer_frame (s : EditorState) :
    (updateContextLayer s).dragged_object = s.dragged_object ∧
    (updateContextLayer s).history = s.history ∧
    (updateContextLayer s).input = s.input ∧
    (updateContextLayer s).previous_input = s.previous_input ∧
    (updateContextLayer s).cursor_position = s.cursor_position ∧
    (updateContextLayer s).previous_cursor_position = s.previous_cursor_position ∧
    (updateContextLayer s).selected_tool = s.selected_tool ∧
    (updateContextLayer s).info_message = s.info_message ∧
    (updateContextLayer s).double_click_timer = s.double_click_timer := by
  unfold updateContextLayer; repeat' split
  all_goals exact ⟨rfl, rfl, rfl, rfl, rfl, rfl, rfl, rfl, rfl⟩

/-- The repair pass never touches the drag state, the history, the input
snapshots or the cursor, and can only clear the tool. -/
theorem updateContext_frame {env : EditorEnv} {s s' : EditorState}
    (h : updateContext env s = some s') :
    s'.dragged_object = s.dragged_object ∧ s'.history = s.history ∧
    s'.input = s.input ∧ s'.previous_input = s.previous_input ∧
    s'.cursor_position = s.cursor_position ∧
    s'.previous_cursor_position = s.previous_cursor_position ∧
    (s.selected_tool = none → s'.selected_tool = none) ∧
    s'.info_message = s.info_message ∧
    s'.double_click_timer = s.double_click_timer := by
  obtain ⟨sk, hk, hs'⟩ := updateContext_cases h
  obtain ⟨k1, k2, k3, k4, k5, k6, k7, k8, k9⟩ := updateContextKind_frame hk
  obtain ⟨l1, l2, l3, l4, l5, l6, l7, l8, l9⟩ := updateContextLayer_frame s
  obtain ⟨t1, t2, t3, t4, t5, t6, t7, t8, t9⟩ := updateContextTileset_frame sk
  obtain ⟨w1, w2, w3, w4, w5, w6, w7, w8⟩ :=
    updateContextTool_frame env (updateContextTileset sk)
  rw [hs']
  refine ⟨?_, ?_, ?_, ?_, ?_, ?_, ?_, ?_, ?_⟩
  · rw [w1, t1, k1, l1]
  · rw [w2, t2, k2, l2]
  · rw [w3, t3, k3, l3]
  · rw [w4, t4, k4, l4]
  · rw [w5, t5, k5, l5]
  · rw [w6, t6, k6, l6]
  · intro htool
    rcases updateContextTool_cases env (updateContextTileset sk) with hc | hc
    · rw [hc, t7, k7, l7]; exact htool
    · rw [hc]
  · rw [w7, t8, k8, l8]
  · rw [w8, t9, k9, l9]

/-! ### Drag interaction lemmas (C8) -/

theorem frameBookkeeping_fields (fe : FrameEnv) (s : EditorState) :
    (frameBookkeeping fe s).input = fe.input ∧
    (frameBookkeeping fe s).previous_input = s.input ∧
    (frameBookkeeping fe s).cursor_position = fe.mouse_position ∧
    (frameBookkeeping fe s).previous_cursor_position = s.cursor_position ∧
    (frameBookkeeping fe s).dragged_object = s.dragged_object ∧
    (frameBookkeeping fe s).history = s.history ∧
    (frameBookkeeping fe s).map_resource = s.map_resource ∧
    (frameBookkeeping fe s).selected_tool = s.selected_tool ∧
    (frameBookkeeping fe s).selected_layer = s.selected_layer ∧
    (frameBookkeeping fe s).selected_object = s.selected_object ∧
    (frameBookkeeping fe s).selected_spawn_point = s.selected_spawn_point ∧
    (frameBookkeeping fe s).double_click_timer = s.double_click_timer ∧
    (frameBookkeeping fe s).should_snap_to_grid = s.should_snap_to_grid := by
  unfold frameBookkeeping
  dsimp only
  repeat' split
  all_goals exact ⟨rfl, rfl, rfl, rfl, rfl, rfl, rfl, rfl, rfl, rfl, rfl, rfl, rfl⟩

theorem frameBookkeeping_info_none {fe : FrameEnv} {s : EditorState}
    (h : s.info_message = none) :
    (frameBookkeeping fe s).info_message = none := by
  unfold frameBookkeeping
  dsimp only
  repeat' split
  all_goals simp_all

/-- Benign drag-frame inputs: no command keys, no toggles, no delete. -/
def QuietInput (inp : EditorInput) : Prop :=
  inp.save = false ∧ inp.save_as = false ∧ inp.load = false ∧
  inp.undo = false ∧ inp.redo = false ∧ inp.delete = false ∧
  inp.toggle_draw_grid = false ∧ inp.toggle_snap_to_grid = false ∧
  inp.toggle_disable_parallax = false

/-- An intermediate held frame is a no-op of the dispatch phase: the
button is still down, a drag is in progress, no tool is selected — no
action is dispatched and the state is untouched. -/
theorem frameDispatch_held (fe : FrameEnv) (t : EditorState) (d : DraggedObject)
    (hin : t.input = fe.input) (hq : QuietInput fe.input)
    (haction : fe.input.action = true)
    (hprev : t.previous_input.action = true)
    (htool : t.selected_tool = none)
    (hdrag : t.dragged_object = some d) :
    frameDispatch fe t = some (t, []) := by
  obtain ⟨h1, h2, h3, h4, h5, h6, h7, h8, h9⟩ := hq
  unfold frameDispatch beginDragStep
  simp [hin, h1, h2, h3, h4, h5, h6, h7, h8, h9, haction, htool, hdrag, hprev]

/-- The conditions under which the begin-drag branch grabs `d` on a state
whose cursor sits at `fe.mouse_position`: the selected object (or, with no
object selected, the selected spawn point) exists and its screen rect
contains the cursor. -/
def BeginsDragState (fe : FrameEnv) (s : EditorState) (d : DraggedObject) : Prop :=
  (∃ index layer_id layer object,
    s.selected_object = some index ∧ s.selected_layer = some layer_id ∧
    s.map.getLayer layer_id = some layer ∧ layer.objects.get? index = some object ∧
    (objectScreenRect fe object).containsPt fe.mouse_position = true ∧
    d = .mapObject object.id object.kind index layer_id
      (fe.mouse_position.sub (fe.camera.to_screen_space fe.window_size object.position))) ∨
  (s.selected_object = none ∧ ∃ index spawn_point,
    s.selected_spawn_point = some index ∧
    s.map.spawn_points.get? index = some spawn_point ∧
    (spawnScreenRect fe spawn_point).containsPt fe.mouse_position = true ∧
    d = .spawnPoint index
      (fe.mouse_position.sub (fe.camera.to_screen_space fe.window_size spawn_point)))

set_option maxHeartbeats 2000000 in
/-- The begin-drag frame of the dispatch phase: the button is held for the
second frame with the cursor unmoved over the selected object or spawn
point — the drag state is armed and nothing is dispatched. -/
theorem frameDispatch_begin (fe : FrameEnv) (t : EditorState) (d : DraggedObject)
    (hin : t.input = fe.input) (hq : QuietInput fe.input)
    (haction : fe.input.action = true)
    (hprev : t.previous_input.action = true)
    (htool : t.selected_tool = none)
    (hdrag : t.dragged_object = none)
    (hcur : t.cursor_position = fe.mouse_position)
    (hcur' : t.previous_cursor_position = fe.mouse_position)
    (hgui : fe.gui_contains fe.mouse_position = false)
    (hbegin : BeginsDragState fe t d) :
    frameDispatch fe t = some ({ t with dragged_object := some d }, []) := by
  obtain ⟨h1, h2, h3, h4, h5, h6, h7, h8, h9⟩ := hq
  rcases hbegin with ⟨index, layer_id, layer, object, ho, hl, hgl, hoo, hrect, hd⟩ |
    ⟨ho, index, spawn_point, hsp, hspp, hrect, hd⟩
  · have hoo' : layer.objects[index]? = some object := by
      rw [← List.get?_eq_getElem?]; exact hoo
    unfold frameDispatch beginDragStep
    simp [hin, h1, h2, h3, h4, h5, h6, h7, h8, h9, haction, htool, hdrag, hprev,
      hcur, hcur', hgui, ho, hl, hgl, hoo', hrect, hd]
  · have hspp' : t.map.spawn_points[index]? = some spawn_point := by
      rw [← List.get?_eq_getElem?]; exact hspp
    unfold frameDispatch beginDragStep
    simp [hin, h1, h2, h3, h4, h5, h6, h7, h8, h9, haction, htool, hdrag, hprev,
      hcur, hcur', hgui, ho, hsp, hspp', hrect, hd]

/-- The repair pass never touches the map resource. -/
theorem updateContext_map {env : EditorEnv} {s s' : EditorState}
    (h : updateContext env s = some s') : s'.map_resource = s.map_resource := by
  obtain ⟨sk, hk, hs'⟩ := updateContext_cases h
  have hl : (updateContextLayer s).map_resource = s.map_resource := by
    unfold updateContextLayer; repeat' split
    all_goals rfl
  have hkm : sk.map_resource = (updateContextLayer s).map_resource := by
    unfold updateContextKind at hk
    repeat' split at hk
    all_goals injection hk
    all_goals (rename_i h'; subst h'; rfl)
  have ht : (updateContextTileset sk).map_resource = sk.map_resource := by
    unfold updateContextTileset; repeat' split
    all_goals rfl
  have hw : (updateContextTool env (updateContextTileset sk)).map_resource =
      (updateContextTileset sk).map_resource := by
    rcases updateContextTool_cases env (updateContextTileset sk) with hc | hc <;> rw [hc]
  rw [hs', hw, ht, hkm, hl]

theorem map_eq_of_map_resource_eq {s s' : EditorState}
    (h : s.map_resource = s'.map_resource) : s.map = s'.map := by
  unfold EditorState.map
  rw [h]

/-- The begin-drag conditions only read fields both states share. -/
theorem beginsDragState_of_fields {fe : FrameEnv} {s s' : EditorState} {d : DraggedObject}
    (hm : s'.map_resource = s.map_resource)
    (ho : s'.selected_object = s.selected_object)
    (hl : s'.selected_layer = s.selected_layer)
    (hsp : s'.selected_spawn_point = s.selected_spawn_point)
    (h : BeginsDragState fe s d) : BeginsDragState fe s' d := by
  have hmap : s'.map = s.map := map_eq_of_map_resource_eq hm
  unfold BeginsDragState at h ⊢
  rw [hmap, ho, hl, hsp]
  exact h

theorem alistGet_alistSet_isSome {α : Type} (k key : String) (v : α) :
    ∀ l : List (String × α),
      (alistGet k (alistSet key v l)).isSome = (alistGet k l).isSome := by
  intro l
  induction l with
  | nil => rfl
  | cons p rest ih =>
    obtain ⟨k', w⟩ := p
    by_cases hk : k' = key
    · subst hk
      by_cases hkk : k' = k <;> simp [alistSet, alistGet, hkk]
    · by_cases hkk : k' = k
      · subst hkk
        simp [alistSet, alistGet, hk]
      · simp [alistSet, alistGet, hk, hkk, ih]

/-- The map after `UpdateObject` replaces the object at `index` of the layer
named `layer_id` (whose current value is `layer`). -/
def mapWithObjectSet (m : Map) (layer_id : String) (layer : MapLayer) (index : Nat)
    (id : String) (kind : MapObjectKind) (p : Vec2) : Map :=
  { m with
      layers :=
        alistSet layer_id
          { layer with
              objects := layer.objects.set index { id := id, kind := kind, position := p } }
          m.layers }

/-- Dispatching `UpdateObject` at an existing object succeeds and pushes
exactly one entry onto the history. -/
theorem applyAction_updateObject_ok (env : EditorEnv) (s : EditorState)
    (layer_id : String) (index : Nat) (id : String) (kind : MapObjectKind) (p : Vec2)
    (hwf : MapWf s.map)
    (layer : MapLayer) (hl : s.map.getLayer layer_id = some layer)
    (old : MapObject) (hobj : layer.objects.get? index = some old) :
    ∃ s', applyAction env (.updateObject layer_id index id kind p) s = some s' ∧
      s'.history.stack = s.history.stack.take s.history.cursor ++
        [.updateObject layer_id index id kind p (some old)] ∧
      s'.history.cursor = s.history.cursor + 1 ∧
      s'.input = s.input ∧ s'.dragged_object = s.dragged_object := by
  have hobj' : layer.objects[index]? = some old := by
    rw [← List.get?_eq_getElem?]; exact hobj
  have happly : MapAction.applyTo (.updateObject layer_id index id kind p none) s.map =
      .ok (.updateObject layer_id index id kind p (some old),
        mapWithObjectSet s.map layer_id layer index id kind p) := by
    simp [MapAction.applyTo, mapWithObjectSet, hl, hobj']
  have hdisp : dispatch env (.updateObject layer_id index id kind p) s =
      ({ s with
          history :=
            ⟨s.history.stack.take s.history.cursor ++
              [.updateObject layer_id index id kind p (some old)], s.history.cursor + 1⟩
          map_resource :=
            { s.map_resource with
                map := mapWithObjectSet s.map layer_id layer index id kind p } },
        .ok ()) := by
    simp [dispatch, routeHistory, EditorHistory.applyAct, mapActionOps, happly]
  have hwf' : MapWf (mapWithObjectSet s.map layer_id layer index id kind p) := by
    intro i hi
    simp only [mapWithObjectSet, Map.getLayer]
    rw [alistGet_alistSet_isSome]
    exact hwf i hi
  have hsome := updateContext_isSome env
    { s with
        history :=
          ⟨s.history.stack.take s.history.cursor ++
            [.updateObject layer_id index id kind p (some old)], s.history.cursor + 1⟩
        map_resource :=
          { s.map_resource with
              map := mapWithObjectSet s.map layer_id layer index id kind p } }
    hwf'
  obtain ⟨s', hs'⟩ := Option.isSome_iff_exists.mp hsome
  obtain ⟨f1, f2, f3, _, _, _, _, _, _⟩ := updateContext_frame hs'
  refine ⟨s', ?_, ?_, ?_, ?_, ?_⟩
  · unfold applyAction
    rw [hdisp]
    exact hs'
  · rw [f2]
  · rw [f2]
  · rw [f3]
  · rw [f1]

/-- Dispatching `MoveSpawnPoint` at an existing spawn point succeeds and
pushes exactly one entry onto the history. -/
theorem applyAction_moveSpawnPoint_ok (env : EditorEnv) (s : EditorState)
    (index : Nat) (p : Vec2) (hwf : MapWf s.map)
    (old : Vec2) (hsp : s.map.spawn_points.get? index = some old) :
    ∃ s', applyAction env (.moveSpawnPoint index p) s = some s' ∧
      s'.history.stack = s.history.stack.take s.history.cursor ++
        [.moveSpawnPoint index p (some old)] ∧
      s'.history.cursor = s.history.cursor + 1 ∧
      s'.input = s.input ∧ s'.dragged_object = s.dragged_object := by
  have hsp' : s.map.spawn_points[index]? = some old := by
    rw [← List.get?_eq_getElem?]; exact hsp
  have happly : MapAction.applyTo (.moveSpawnPoint index p none) s.map =
      .ok (.moveSpawnPoint index p (some old),
        { s.map with spawn_points := s.map.spawn_points.set index p }) := by
    simp [MapAction.applyTo, hsp']
  have hdisp : dispatch env (.moveSpawnPoint index p) s =
      ({ s with
          history := ⟨s.history.stack.take s.history.cursor ++
            [.moveSpawnPoint index p (some old)], s.history.cursor + 1⟩
          map_resource := { s.map_resource with map :=
            { s.map with spawn_points := s.map.spawn_points.set index p } } },
        .ok ()) := by
    simp [dispatch, routeHistory, EditorHistory.applyAct, mapActionOps, happly]
  have hwf' : MapWf { s.map with spawn_points := s.map.spawn_points.set index p } := by
    intro i hi
    exact hwf i hi
  have hsome := updateContext_isSome env
    { s with
        history := ⟨s.history.stack.take s.history.cursor ++
          [.moveSpawnPoint index p (some old)], s.history.cursor + 1⟩
        map_resource := { s.map_resource with map :=
          { s.map with spawn_points := s.map.spawn_points.set index p } } }
    hwf'
  obtain ⟨s', hs'⟩ := Option.isSome_iff_exists.mp hsome
  obtain ⟨f1, f2, f3, _, _, _, _, _, _⟩ := updateContext_frame hs'
  refine ⟨s', ?_, ?_, ?_, ?_, ?_⟩
  · unfold applyAction
    rw [hdisp]
    exact hs'
  · rw [f2]
  · rw [f2]
  · rw [f3]
  · rw [f1]

/-- The drag target still exists in the map at commit time. -/
def DragTargetValid (m : Map) : DraggedObject → Prop
  | .mapObject _ _ index layer_id _ =>
    ∃ layer, m.getLayer layer_id = some layer ∧ index < layer.objects.length
  | .spawnPoint index _ => index < m.spawn_points.length

/-- The single action a drag commit dispatches: an `UpdateObject` of the
dragged object, or a `MoveSpawnPoint` of the dragged spawn point. -/
def DragCommitAction (d : DraggedObject) (a : EditorAction) : Prop :=
  match d with
  | .mapObject id kind index layer_id _ =>
    ∃ p, a = .updateObject layer_id index id kind p
  | .spawnPoint index _ => ∃ p, a = .moveSpawnPoint index p

set_option maxHeartbeats 2000000 in
/-- The release frame of the dispatch phase: the button is up with a drag
in progress — exactly one `UpdateObject`/`MoveSpawnPoint` is dispatched,
appending exactly one entry to the history.  The double-click timer may
hold any value: when it is still below the threshold the release frame
additionally advances it, which touches no other field and dispatches
nothing. -/
theorem frameDispatch_release (fe : FrameEnv) (t : EditorState) (d : DraggedObject)
    (hin : t.input = fe.input) (hq : QuietInput fe.input)
    (haction : fe.input.action = false)
    (htool : t.selected_tool = none)
    (hdrag : t.dragged_object = some d)
    (hwf : MapWf t.map)
    (hvalid : DragTargetValid t.map d) :
    ∃ s' act, frameDispatch fe t = some (s', [act]) ∧
      DragCommitAction d act ∧ s'.dragged_object = none ∧
      ∃ cap, s'.history.stack = t.history.stack.take t.history.cursor ++ [cap] ∧
        s'.history.cursor = t.history.cursor + 1 := by
  obtain ⟨h1, h2, h3, h4, h5, h6, h7, h8, h9⟩ := hq
  by_cases hdc : t.double_click_timer < DOUBLE_CLICK_THRESHOLD
  · cases d with
    | mapObject id kind index layer_id click_offset =>
      obtain ⟨layer, hl, hidx⟩ := hvalid
      have hobj : layer.objects.get? index = some (layer.objects.get ⟨index, hidx⟩) :=
        List.get?_eq_get hidx
      obtain ⟨s', hap, hstack, hcursor, hinput, hdragp⟩ :=
        applyAction_updateObject_ok fe.editor
          { t with
              dragged_object := none
              double_click_timer :=
                min (max (t.double_click_timer + fe.frame_time) 0)
                  DOUBLE_CLICK_THRESHOLD }
          layer_id index id kind
          ((dropPosition fe
            { t with
                dragged_object := none
                double_click_timer :=
                  min (max (t.double_click_timer + fe.frame_time) 0)
                    DOUBLE_CLICK_THRESHOLD }).sub click_offset)
          hwf layer hl _ hobj
      refine ⟨s', .updateObject layer_id index id kind
          ((dropPosition fe
            { t with
                dragged_object := none
                double_click_timer :=
                  min (max (t.double_click_timer + fe.frame_time) 0)
                    DOUBLE_CLICK_THRESHOLD }).sub click_offset),
        ?_, ⟨_, rfl⟩, hdragp, _, hstack, hcursor⟩
      rw [htool, hin] at hap
      unfold frameDispatch releaseDragStep
      simp [hin, h1, h2, h3, h4, h5, h6, h7, h8, h9, haction, htool, hdrag, hdc,
        applyA, hap, hinput]
    | spawnPoint index click_offset =>
      have hidx : index < t.map.spawn_points.length := hvalid
      have hsp : t.map.spawn_points.get? index =
          some (t.map.spawn_points.get ⟨index, hidx⟩) := List.get?_eq_get hidx
      obtain ⟨s', hap, hstack, hcursor, hinput, hdragp⟩ :=
        applyAction_moveSpawnPoint_ok fe.editor
          { t with
              dragged_object := none
              double_click_timer :=
                min (max (t.double_click_timer + fe.frame_time) 0)
                  DOUBLE_CLICK_THRESHOLD }
          index
          ((dropPosition fe
            { t with
                dragged_object := none
                double_click_timer :=
                  min (max (t.double_click_timer + fe.frame_time) 0)
                    DOUBLE_CLICK_THRESHOLD }).sub click_offset)
          hwf _ hsp
      refine ⟨s', .moveSpawnPoint index
          ((dropPosition fe
            { t with
                dragged_object := none
                double_click_timer :=
                  min (max (t.double_click_timer + fe.frame_time) 0)
                    DOUBLE_CLICK_THRESHOLD }).sub click_offset),
        ?_, ⟨_, rfl⟩, hdragp, _, hstack, hcursor⟩
      rw [htool, hin] at hap
      unfold frameDispatch releaseDragStep
      simp [hin, h1, h2, h3, h4, h5, h6, h7, h8, h9, haction, htool, hdrag, hdc,
        applyA, hap, hinput]
  · cases d with
    | mapObject id kind index layer_id click_offset =>
      obtain ⟨layer, hl, hidx⟩ := hvalid
      have hobj : layer.objects.get? index = some (layer.objects.get ⟨index, hidx⟩) :=
        List.get?_eq_get hidx
      obtain ⟨s', hap, hstack, hcursor, hinput, hdragp⟩ :=
        applyAction_updateObject_ok fe.editor { t with dragged_object := none }
          layer_id index id kind
          ((dropPosition fe { t with dragged_object := none }).sub click_offset)
          hwf layer hl _ hobj
      refine ⟨s', .updateObject layer_id index id kind
          ((dropPosition fe { t with dragged_object := none }).sub click_offset),
        ?_, ⟨_, rfl⟩, hdragp, _, hstack, hcursor⟩
      rw [htool, hin] at hap
      unfold frameDispatch releaseDragStep
      simp [hin, h1, h2, h3, h4, h5, h6, h7, h8, h9, haction, htool, hdrag, hdc,
        applyA, hap, hinput]
    | spawnPoint index click_offset =>
      have hidx : index < t.map.spawn_points.length := hvalid
      have hsp : t.map.spawn_points.get? index =
          some (t.map.spawn_points.get ⟨index, hidx⟩) := List.get?_eq_get hidx
      obtain ⟨s', hap, hstack, hcursor, hinput, hdragp⟩ :=
        applyAction_moveSpawnPoint_ok fe.editor { t with dragged_object := none }
          index ((dropPosition fe { t with dragged_object := none }).sub click_offset)
          hwf _ hsp
      refine ⟨s', .moveSpawnPoint index
          ((dropPosition fe { t with dragged_object := none }).sub click_offset),
        ?_, ⟨_, rfl⟩, hdragp, _, hstack, hcursor⟩
      rw [htool, hin] at hap
      unfold frameDispatch releaseDragStep
      simp [hin, h1, h2, h3, h4, h5, h6, h7, h8, h9, haction, htool, hdrag, hdc,
        applyA, hap, hinput]

/-- Drag-run invariant between frames: the drag is armed, history and map
are those of the start state, no tool is selected, the button is held. -/
def DragInv (s0 : EditorState) (d : DraggedObject) (s : EditorState) : Prop :=
  s.dragged_object = some d ∧ s.history = s0.history ∧
  s.map_resource = s0.map_resource ∧ s.selected_tool = none ∧
  s.input.action = true

/-- A full held frame of `Editor::update` dispatches nothing and keeps the
drag-run invariant. -/
theorem editorUpdate_held {s0 : EditorState} {d : DraggedObject}
    (hwf0 : MapWf s0.map) (fe : FrameEnv)
    (hq : QuietInput fe.input) (hact : fe.input.action = true)
    (s : EditorState) (hinv : DragInv s0 d s) :
    ∃ t, editorUpdate fe s = some (t, []) ∧ DragInv s0 d t := by
  obtain ⟨hdrag, hhist, hmr, htool, hact_s⟩ := hinv
  have hwf : MapWf s.map := by rw [map_eq_of_map_resource_eq hmr]; exact hwf0
  obtain ⟨u, hu⟩ := Option.isSome_iff_exists.mp (updateContext_isSome fe.editor s hwf)
  obtain ⟨u1, u2, u3, u4, u5, u6, u7, u8, u9⟩ := updateContext_frame hu
  have umr := updateContext_map hu
  obtain ⟨b1, b2, b3, b4, b5, b6, b7, b8, b9, b10, b11, b12, b13⟩ :=
    frameBookkeeping_fields fe u
  have hfd := frameDispatch_held fe (frameBookkeeping fe u) d b1 hq hact
    (by rw [b2, u3]; exact hact_s)
    (by rw [b8]; exact u7 htool)
    (by rw [b5, u1]; exact hdrag)
  refine ⟨frameBookkeeping fe u, ?_, ?_, ?_, ?_, ?_, ?_⟩
  · simp [editorUpdate, hu, hfd]
  · rw [b5, u1]; exact hdrag
  · rw [b6, u2]; exact hhist
  · rw [b7, umr]; exact hmr
  · rw [b8]; exact u7 htool
  · rw [b1]; exact hact

/-- A full release frame of `Editor::update` dispatches exactly one
commit action from a drag-invariant state. -/
theorem editorUpdate_release {s0 : EditorState} {d : DraggedObject}
    (hwf0 : MapWf s0.map) (fe : FrameEnv)
    (hq : QuietInput fe.input) (hact : fe.input.action = false)
    (hvalid : DragTargetValid s0.map d)
    (s : EditorState) (hinv : DragInv s0 d s) :
    ∃ s' act cap, editorUpdate fe s = some (s', [act]) ∧
      DragCommitAction d act ∧
      s'.history.stack = s0.history.stack.take s0.history.cursor ++ [cap] ∧
      s'.history.cursor = s0.history.cursor + 1 := by
  obtain ⟨hdrag, hhist, hmr, htool, hact_s⟩ := hinv
  have hwf : MapWf s.map := by rw [map_eq_of_map_resource_eq hmr]; exact hwf0
  obtain ⟨u, hu⟩ := Option.isSome_iff_exists.mp (updateContext_isSome fe.editor s hwf)
  obtain ⟨u1, u2, u3, u4, u5, u6, u7, u8, u9⟩ := updateContext_frame hu
  have umr := updateContext_map hu
  obtain ⟨b1, b2, b3, b4, b5, b6, b7, b8, b9, b10, b11, b12, b13⟩ :=
    frameBookkeeping_fields fe u
  have hmap : (frameBookkeeping fe u).map = s0.map := by
    rw [map_eq_of_map_resource_eq (b7.trans (umr.trans hmr))]
  obtain ⟨s', act, hfd, hcommit, hdragn, cap, hstack, hcursor⟩ :=
    frameDispatch_release fe (frameBookkeeping fe u) d b1 hq hact
      (by rw [b8]; exact u7 htool)
      (by rw [b5, u1]; exact hdrag)
      (by rw [hmap]; exact hwf0)
      (by rw [hmap]; exact hvalid)
  refine ⟨s', act, cap, ?_, hcommit, ?_, ?_⟩
  · simp [editorUpdate, hu, hfd]
  · rw [hstack, b6, u2, hhist]
  · rw [hcursor, b6, u2, hhist]

/-- Running any number of held frames followed by the release frame from a
drag-invariant state dispatches exactly the single commit action. -/
theorem runFrames_drag_tail {s0 : EditorState} {d : DraggedObject}
    (hwf0 : MapWf s0.map) (fe_r : FrameEnv)
    (hq_r : QuietInput fe_r.input) (hact_r : fe_r.input.action = false)
    (hvalid : DragTargetValid s0.map d) :
    ∀ helds : List FrameEnv,
      (∀ fe ∈ helds, QuietInput fe.input ∧ fe.input.action = true) →
      ∀ s, DragInv s0 d s →
      ∃ s' act cap, runFrames (helds ++ [fe_r]) s = some (s', [act]) ∧
        DragCommitAction d act ∧
        s'.history.stack = s0.history.stack.take s0.history.cursor ++ [cap] ∧
        s'.history.cursor = s0.history.cursor + 1 := by
  intro helds
  induction helds with
  | nil =>
    intro _ s hinv
    obtain ⟨s', act, cap, heu, hcommit, hstack, hcursor⟩ :=
      editorUpdate_release hwf0 fe_r hq_r hact_r hvalid s hinv
    refine ⟨s', act, cap, ?_, hcommit, hstack, hcursor⟩
    simp [runFrames, heu]
  | cons fe rest ih =>
    intro hq s hinv
    obtain ⟨t, heu, hinv'⟩ :=
      editorUpdate_held hwf0 fe (hq fe (List.mem_cons_self fe rest)).1
        (hq fe (List.mem_cons_self fe rest)).2 s hinv
    obtain ⟨s', act, cap, hrun, hcommit, hstack, hcursor⟩ :=
      ih (fun f hf => hq f (List.mem_cons_of_mem fe hf)) t hinv'
    refine ⟨s', act, cap, ?_, hcommit, hstack, hcursor⟩
    simp [runFrames, heu, hrun]

/-- C8: a multi-frame drag of a map object or spawn point records exactly
one undoable action.  From a stable state with the button already held
over the selected object or spawn point: the begin frame arms the drag and
dispatches nothing, every held frame dispatches nothing, and the release
frame dispatches a single `UpdateObject`/`MoveSpawnPoint` — the whole run
returns exactly one action, and the history gains exactly one entry. -/
theorem drag_single_undoable_action
    (fe_b fe_r : FrameEnv) (helds : List FrameEnv)
    (s0 : EditorState) (d : DraggedObject)
    (hstable : updateContext fe_b.editor s0 = some s0)
    (hwf0 : MapWf s0.map)
    (hq_b : QuietInput fe_b.input) (hact_b : fe_b.input.action = true)
    (hprev : s0.input.action = true)
    (htool : s0.selected_tool = none)
    (hdrag : s0.dragged_object = none)
    (hcur : s0.cursor_position = fe_b.mouse_position)
    (hgui : fe_b.gui_contains fe_b.mouse_position = false)
    (hbegin : BeginsDragState fe_b s0 d)
    (hhelds : ∀ fe ∈ helds, QuietInput fe.input ∧ fe.input.action = true)
    (hq_r : QuietInput fe_r.input) (hact_r : fe_r.input.action = false) :
    ∃ s_fin act cap,
      runFrames (fe_b :: (helds ++ [fe_r])) s0 = some (s_fin, [act]) ∧
      DragCommitAction d act ∧
      s_fin.history.stack = s0.history.stack.take s0.history.cursor ++ [cap] ∧
      s_fin.history.cursor = s0.history.cursor + 1 := by
  obtain ⟨b1, b2, b3, b4, b5, b6, b7, b8, b9, b10, b11, b12, b13⟩ :=
    frameBookkeeping_fields fe_b s0
  have hbegin' : BeginsDragState fe_b (frameBookkeeping fe_b s0) d :=
    beginsDragState_of_fields b7 b10 b9 b11 hbegin
  have hfd := frameDispatch_begin fe_b (frameBookkeeping fe_b s0) d b1 hq_b hact_b
    (by rw [b2]; exact hprev)
    (by rw [b8]; exact htool)
    (by rw [b5]; exact hdrag)
    b3
    (by rw [b4]; exact hcur)
    hgui hbegin'
  have heu : editorUpdate fe_b s0 =
      some ({ frameBookkeeping fe_b s0 with dragged_object := some d }, []) := by
    simp [editorUpdate, hstable, hfd]
  have hinv : DragInv s0 d { frameBookkeeping fe_b s0 with dragged_object := some d } := by
    refine ⟨rfl, ?_, ?_, ?_, ?_⟩
    · exact b6
    · exact b7
    · show (frameBookkeeping fe_b s0).selected_tool = none
      rw [b8]; exact htool
    · show (frameBookkeeping fe_b s0).input.action = true
      rw [b1]; exact hact_b
  have hvalid : DragTargetValid s0.map d := by
    rcases hbegin with ⟨index, layer_id, layer, object, ho, hl, hgl, hoo, hrect, hd⟩ |
      ⟨ho, index, spawn_point, hsp, hspp, hrect, hd⟩
    · subst hd
      refine ⟨layer, hgl, ?_⟩
      by_contra hc
      push_neg at hc
      rw [List.get?_eq_none.mpr hc] at hoo
      exact Option.noConfusion hoo
    · subst hd
      show index < s0.map.spawn_points.length
      by_contra hc
      push_neg at hc
      rw [List.get?_eq_none.mpr hc] at hspp
      exact Option.noConfusion hspp
  obtain ⟨s', act, cap, hrun, hcommit, hstack, hcursor⟩ :=
    runFrames_drag_tail hwf0 fe_r hq_r hact_r hvalid helds hhelds _ hinv
  refine ⟨s', act, cap, ?_, hcommit, hstack, hcursor⟩
  simp [runFrames, heu, hrun]

/-! ### C8 witness fixtures: a three-frame drag of one map object -/

/-- The dragged object fixture, sitting at the world origin. -/
def dragObj : MapObject := { id := "obj", kind := .item, position := Vec2.zero }

/-- The map under the drag: a single object layer holding `dragObj`. -/
def dragMap : Map := mapWith [("objects", objectLayer0 "objects" [dragObj])] ["objects"]

/-- The state the drag starts from: the object selected on the previous
press (which also reset the double-click timer to zero, as the hit-test
does), the button still held. -/
def dragState0 : EditorState :=
  { baseState dragMap with
      selected_object := some 0
      input := { EditorInput.default with action := true } }

/-- The begin/held frame environment: button down, no command keys, unit
camera over a zero-sized window, empty GUI. -/
def dragFrameB : FrameEnv :=
  { mouse_position := Vec2.zero
    frame_time := 0
    input := { EditorInput.default with action := true }
    camera := { position := Vec2.zero, scale := 1 }
    window_size := ⟨0, 0⟩
    gui_contains := fun _ => false
    gui_context_menu_contains := fun _ => false
    tool_update := fun _ _ _ => none
    tool_get_action := fun _ _ _ => none
    tool_is_continuous := fun _ => false
    editor := env0 }

/-- The release frame environment: the same, with the button up. -/
def dragFrameR : FrameEnv :=
  { dragFrameB with input := EditorInput.default }

/-- The drag state grabbed on the begin frame. -/
def dragD : DraggedObject :=
  .mapObject dragObj.id dragObj.kind 0 "objects"
    (dragFrameB.mouse_position.sub
      (dragFrameB.camera.to_screen_space dragFrameB.window_size dragObj.position))

/-- Witness for C8: a concrete three-frame drag (begin, one held frame,
release) of the single object of `dragMap` yields exactly one dispatched
action and exactly one new history entry. -/
theorem drag_single_undoable_action_witness :
    ∃ s_fin act cap,
      runFrames (dragFrameB :: ([dragFrameB] ++ [dragFrameR])) dragState0 =
        some (s_fin, [act]) ∧
      DragCommitAction dragD act ∧
      s_fin.history.stack =
        dragState0.history.stack.take dragState0.history.cursor ++ [cap] ∧
      s_fin.history.cursor = dragState0.history.cursor + 1 :=
  drag_single_undoable_action dragFrameB dragFrameR [dragFrameB] dragState0 dragD
    (by decide) (by decide)
    ⟨rfl, rfl, rfl, rfl, rfl, rfl, rfl, rfl, rfl⟩ rfl rfl rfl rfl rfl rfl
    (Or.inl ⟨0, "objects", objectLayer0 "objects" [dragObj], dragObj, rfl, rfl, rfl, rfl,
      by norm_num [objectScreenRect, get_object_size, EditorCamera.to_screen_space,
        EditorCamera.get_view_rect, Rect.containsPt, Rect.point, Vec2.sub,
        Vec2.mulScalar, Vec2.divScalar, dragFrameB, dragObj, Vec2.zero], rfl⟩)
    (by
      intro fe hf
      rw [List.mem_singleton] at hf
      subst hf
      exact ⟨⟨rfl, rfl, rfl, rfl, rfl, rfl, rfl, rfl, rfl⟩, rfl⟩)
    ⟨rfl, rfl, rfl, rfl, rfl, rfl, rfl, rfl, rfl⟩ rfl

end FishFight
